import Mathlib

/-!
# Bankpoke — verification of the reconciliation / pairing core

Shallow embedding of the `bankpoke` repository's transaction-import core:

* `src/backend/app/main.py` — the FastAPI backend: row normalization for the
  two supported schemas, the fingerprint engine, the three-level fallback
  matcher, the import reconciler, the monthly summary, and the single-row
  create / update endpoints.
* `src/src/bankpoke/mvp.py` — the ledger (MVP) variant: TSV normalization and
  the internal-transfer pairing pass.

Modelling conventions:

* SQLite tables are lists of records in insertion (rowid) order; `SELECT`
  without `ORDER BY` is read in that order, and `UPDATE ... WHERE id = ?`
  maps over the list.
* SHA-256 (`_transaction_fingerprint`) and MD5 (the transfer group id) are
  only ever compared for equality, so each digest is modelled as an injective
  function of its input — the input itself.  Concretely a backend fingerprint
  is the dedup-key tuple that the source pipes into `hashlib.sha256`.
* Python `str(int)` and `int(Decimal(str(x)))` / `int(x)` are modelled by
  executable digit printers/parsers defined below (`intToDecimalString`,
  `parseSignedInt`, `parseIntStrict`); exotic `Decimal` forms (exponents,
  `Infinity`, `NaN`) are out of scope and treated as unparseable.
* Python `str.strip()` is modelled by `String.pyStrip`, `str.lower()` by
  `String.pyLower`.
-/

/-- Model of Python `str.strip()`: drop leading and trailing whitespace
(kept kernel-reducible, unlike `String.trim`). -/
def String.pyStrip (s : String) : String :=
  ⟨((s.toList.dropWhile Char.isWhitespace).reverse.dropWhile Char.isWhitespace).reverse⟩

/-- Model of the one `str.replace` use of the sources, `replace(",", "")`:
drop every comma. -/
def String.removeCommas (s : String) : String :=
  ⟨s.toList.filter (· ≠ ',')⟩

/-- Model of Python `str.lower()` on the ASCII range (the only range the
sources lower-case: direction strings). -/
def String.pyLower (s : String) : String :=
  ⟨s.toList.map fun c => if 'A' ≤ c ∧ c ≤ 'Z' then Char.ofNat (c.toNat + 32) else c⟩

deriving instance DecidableEq for Except

namespace Bankpoke

/-! ## Digit strings: models of `str(int)` and of numeric parsing -/

/-- The decimal digit characters, as CPython prints them. -/
def digitChar (d : Nat) : Char :=
  match d with
  | 0 => '0' | 1 => '1' | 2 => '2' | 3 => '3' | 4 => '4'
  | 5 => '5' | 6 => '6' | 7 => '7' | 8 => '8' | _ => '9'

/-- Worker for `natToDigits`: prepends the digits of `n` (least significant
digit first consumed) onto `acc`; `fuel` bounds the recursion structurally so
that the definition stays kernel-reducible. -/
def natToDigitsAux (fuel : Nat) (n : Nat) (acc : List Char) : List Char :=
  match fuel with
  | 0 => acc
  | fuel + 1 =>
    let acc' := digitChar (n % 10) :: acc
    if n < 10 then acc' else natToDigitsAux fuel (n / 10) acc'

/-- Decimal digits of a natural number, most significant first
(`n + 1` fuel always suffices since `n < 10 ^ (n + 1)`). -/
def natToDigits (n : Nat) : List Char :=
  natToDigitsAux (n + 1) n []

/-- Model of Python `str` on `int`: optional minus sign followed by digits. -/
def intToDecimalString (i : Int) : String :=
  match i with
  | .ofNat n => ⟨natToDigits n⟩
  | .negSucc n => ⟨'-' :: natToDigits (n + 1)⟩

/-- Is `c` a decimal digit (code points 48–57)? -/
def isDigitB (c : Char) : Bool :=
  decide (48 ≤ c.toNat) && decide (c.toNat ≤ 57)

/-- Whitespace as stripped by numeric parsing (space, tab, LF, CR). -/
def isWsB (c : Char) : Bool :=
  decide (c.toNat = 32) || decide (c.toNat = 9) ||
  decide (c.toNat = 10) || decide (c.toNat = 13)

/-- Value of a most-significant-first digit list. -/
def digitsToNat (ds : List Char) : Nat :=
  ds.foldl (fun a c => 10 * a + (c.toNat - 48)) 0

/-- Core of the numeric parsers: strip surrounding whitespace and an optional
sign, then read an integer part and (when `allowFraction`) an optional
fractional part, truncating toward zero as `int(Decimal(...))` does. -/
def parseDecimalChars (allowFraction : Bool) (cs0 : List Char) : Option Int :=
  let cs1 := cs0.dropWhile isWsB
  let cs := (cs1.reverse.dropWhile isWsB).reverse
  let signed : Bool × List Char :=
    match cs with
    | [] => (false, [])
    | c :: t => if c = '-' then (true, t) else if c = '+' then (false, t) else (false, c :: t)
  let intPart := signed.2.takeWhile isDigitB
  let rest := signed.2.dropWhile isDigitB
  let ok : Bool :=
    match rest with
    | [] => !intPart.isEmpty
    | '.' :: frac =>
        allowFraction && frac.all isDigitB && !(intPart.isEmpty && frac.isEmpty)
    | _ => false
  if ok then
    some (if signed.1 then -(digitsToNat intPart : Int) else (digitsToNat intPart : Int))
  else
    none

/-- Model of `int(Decimal(str(value)))` from `_parse_amount_to_signed_int`
(`backend/app/main.py`): `None` on anything `Decimal` rejects. -/
def parseSignedInt (s : String) : Option Int :=
  parseDecimalChars true s.toList

/-- Model of `abs(int(Decimal(str(value))))` from `_parse_amount_to_abs_int`
(`backend/app/main.py`). -/
def parseAbsInt (s : String) : Option Nat :=
  (parseSignedInt s).map Int.natAbs

/-- Model of Python's strict `int(str)` (used by `mvp.py`): sign and digits
only, no fractional part. -/
def parseIntStrict (s : String) : Option Int :=
  parseDecimalChars false s.toList

/-! ### Round-trip: parsing a printed integer recovers it -/

theorem digitChar_toNat (d : Nat) (hd : d < 10) : (digitChar d).toNat = 48 + d := by
  interval_cases d <;> rfl

theorem isDigitB_digitChar (d : Nat) (hd : d < 10) : isDigitB (digitChar d) = true := by
  interval_cases d <;> rfl

theorem natToDigitsAux_ne_nil (fuel n : Nat) (acc : List Char)
    (h : fuel ≠ 0 ∨ acc ≠ []) : natToDigitsAux fuel n acc ≠ [] := by
  induction fuel generalizing n acc with
  | zero =>
    rcases h with h | h
    · omega
    · exact h
  | succ fuel ih =>
    unfold natToDigitsAux
    by_cases hlt : n < 10
    · simp [hlt]
    · simp only [hlt, if_false]
      exact ih (n / 10) _ (Or.inr (by simp))

theorem natToDigits_ne_nil (n : Nat) : natToDigits n ≠ [] :=
  natToDigitsAux_ne_nil (n + 1) n [] (Or.inl (by omega))

theorem natToDigitsAux_all_digits (fuel n : Nat) (acc : List Char)
    (hacc : acc.all isDigitB = true) :
    (natToDigitsAux fuel n acc).all isDigitB = true := by
  induction fuel generalizing n acc with
  | zero => exact hacc
  | succ fuel ih =>
    have hd : isDigitB (digitChar (n % 10)) = true :=
      isDigitB_digitChar _ (Nat.mod_lt n (by omega))
    unfold natToDigitsAux
    by_cases hlt : n < 10
    · simp [hlt, hd, hacc]
    · simp only [hlt, if_false]
      exact ih (n / 10) _ (by simp [hd, hacc])

theorem natToDigits_all_digits (n : Nat) : (natToDigits n).all isDigitB = true :=
  natToDigitsAux_all_digits (n + 1) n [] rfl

theorem foldl_digits_from (l : List Char) (a : Nat) :
    l.foldl (fun x c => 10 * x + (c.toNat - 48)) a = a * 10 ^ l.length + digitsToNat l := by
  induction l generalizing a with
  | nil => simp [digitsToNat]
  | cons c t ih =>
    have h1 := ih (10 * a + (c.toNat - 48))
    have h2 := ih (c.toNat - 48)
    have h0 : digitsToNat (c :: t) = t.foldl (fun x c => 10 * x + (c.toNat - 48))
        (10 * 0 + (c.toNat - 48)) := rfl
    simp only [List.foldl_cons, h0, h1, List.length_cons, pow_succ]
    rw [show (10 * 0 + (c.toNat - 48)) = c.toNat - 48 by omega, h2]
    ring

theorem digitsToNat_cons (c : Char) (t : List Char) :
    digitsToNat (c :: t) = (c.toNat - 48) * 10 ^ t.length + digitsToNat t := by
  have h0 : digitsToNat (c :: t) = t.foldl (fun x c => 10 * x + (c.toNat - 48))
      (10 * 0 + (c.toNat - 48)) := rfl
  rw [h0, foldl_digits_from]
  ring_nf

theorem digitsToNat_natToDigitsAux (fuel n : Nat) (acc : List Char)
    (hn : n < 10 ^ fuel) :
    digitsToNat (natToDigitsAux fuel n acc) = n * 10 ^ acc.length + digitsToNat acc := by
  induction fuel generalizing n acc with
  | zero =>
    have : n = 0 := by simpa using hn
    subst this
    simp [natToDigitsAux]
  | succ fuel ih =>
    unfold natToDigitsAux
    by_cases hlt : n < 10
    · simp only [hlt, if_true]
      rw [digitsToNat_cons, Nat.mod_eq_of_lt hlt, digitChar_toNat n hlt]
      simp
    · simp only [hlt, if_false]
      have hdiv : n / 10 < 10 ^ fuel := by
        rw [Nat.div_lt_iff_lt_mul (by omega)]
        calc n < 10 ^ (fuel + 1) := hn
        _ = 10 ^ fuel * 10 := by rw [pow_succ]
      rw [ih (n / 10) _ hdiv, digitsToNat_cons,
        digitChar_toNat (n % 10) (Nat.mod_lt n (by omega))]
      have hd0 : 48 + n % 10 - 48 = n % 10 := by omega
      rw [hd0]
      have key : n / 10 * (10 ^ acc.length * 10) + n % 10 * 10 ^ acc.length
          = n * 10 ^ acc.length := by
        have hmod : 10 * (n / 10) + n % 10 = n := Nat.div_add_mod n 10
        calc n / 10 * (10 ^ acc.length * 10) + n % 10 * 10 ^ acc.length
            = (10 * (n / 10) + n % 10) * 10 ^ acc.length := by ring
        _ = n * 10 ^ acc.length := by rw [hmod]
      simp only [List.length_cons, pow_succ]
      linarith [key]

theorem digitsToNat_natToDigits (n : Nat) : digitsToNat (natToDigits n) = n := by
  have hb : n < 10 ^ (n + 1) := by
    calc n < n + 1 := by omega
    _ ≤ 10 ^ (n + 1) := Nat.le_of_lt (Nat.lt_pow_self (by omega) (n + 1))
  have := digitsToNat_natToDigitsAux (n + 1) n [] hb
  simpa [digitsToNat] using this

theorem isWsB_of_isDigitB (c : Char) (h : isDigitB c = true) : isWsB c = false := by
  simp only [isDigitB, Bool.and_eq_true, decide_eq_true_eq] at h
  simp only [isWsB, Bool.or_eq_false_iff, decide_eq_false_iff_not]
  omega

theorem dropWhile_isWs_of_digits (ds : List Char) (hds : ds.all isDigitB = true) :
    ds.dropWhile isWsB = ds := by
  cases ds with
  | nil => rfl
  | cons c t =>
    simp only [List.all_cons, Bool.and_eq_true] at hds
    simp [List.dropWhile_cons, isWsB_of_isDigitB c hds.1]

theorem takeWhile_all_eq (p : Char → Bool) (ds : List Char) (hds : ds.all p = true) :
    ds.takeWhile p = ds := by
  induction ds with
  | nil => rfl
  | cons c t ih =>
    simp only [List.all_cons, Bool.and_eq_true] at hds
    simp [List.takeWhile_cons, hds.1, ih hds.2]

theorem dropWhile_all_eq_nil (p : Char → Bool) (ds : List Char) (hds : ds.all p = true) :
    ds.dropWhile p = [] := by
  induction ds with
  | nil => rfl
  | cons c t ih =>
    simp only [List.all_cons, Bool.and_eq_true] at hds
    simp [List.dropWhile_cons, hds.1, ih hds.2]

/-- Round-trip for digit lists through the whitespace/sign/digit scanner. -/
theorem parseDecimalChars_digits (allowFraction : Bool) (ds : List Char)
    (hall : ds.all isDigitB = true) (hne : ds ≠ []) :
    parseDecimalChars allowFraction ds = some (digitsToNat ds : Int) := by
  have hrev : ds.reverse.all isDigitB = true := by simpa using hall
  have h1 : ds.dropWhile isWsB = ds := dropWhile_isWs_of_digits ds hall
  have h2 : ds.reverse.dropWhile isWsB = ds.reverse := dropWhile_isWs_of_digits _ hrev
  cases ds with
  | nil => exact absurd rfl hne
  | cons c t =>
    have hct : (c :: t).all isDigitB = true := hall
    simp only [List.all_cons, Bool.and_eq_true] at hall
    have hc := hall.1
    simp only [isDigitB, Bool.and_eq_true, decide_eq_true_eq] at hc
    have hcm : c ≠ '-' := fun hEq => by subst hEq; exact absurd hc (by decide)
    have hcp : c ≠ '+' := fun hEq => by subst hEq; exact absurd hc (by decide)
    have hie : (List.takeWhile isDigitB (c :: t)).isEmpty = false := by
      rw [takeWhile_all_eq isDigitB _ hct]
      rfl
    simp only [parseDecimalChars, h1, h2, List.reverse_reverse, hcm, hcp, if_false,
      reduceCtorEq, takeWhile_all_eq isDigitB _ hct, dropWhile_all_eq_nil isDigitB _ hct,
      if_neg hcm, if_neg hcp, hie]
    simp

/-- Parsing a printed integer gives back the integer (both parser variants). -/
theorem parse_intToDecimalString (allowFraction : Bool) (i : Int) :
    parseDecimalChars allowFraction (intToDecimalString i).toList = some i := by
  cases i with
  | ofNat n =>
    have hl : (intToDecimalString (.ofNat n)).toList = natToDigits n := rfl
    rw [hl, parseDecimalChars_digits allowFraction _ (natToDigits_all_digits n)
      (natToDigits_ne_nil n), digitsToNat_natToDigits]
    rfl
  | negSucc n =>
    have hlist : (intToDecimalString (.negSucc n)).toList = '-' :: natToDigits (n + 1) := rfl
    rw [hlist]
    have hall := natToDigits_all_digits (n + 1)
    have hrev : (natToDigits (n + 1)).reverse.all isDigitB = true := by simpa using hall
    have h1 : ('-' :: natToDigits (n + 1)).dropWhile isWsB = '-' :: natToDigits (n + 1) := by
      simp [List.dropWhile_cons, isWsB]
    have h2 : ('-' :: natToDigits (n + 1)).reverse.dropWhile isWsB
        = ('-' :: natToDigits (n + 1)).reverse := by
      rw [List.reverse_cons]
      cases hnd : (natToDigits (n + 1)).reverse with
      | nil => exact absurd (by simpa using hnd) (natToDigits_ne_nil (n + 1))
      | cons c t =>
        have hc : isDigitB c = true := by
          rw [hnd] at hrev
          simp only [List.all_cons, Bool.and_eq_true] at hrev
          exact hrev.1
        simp [List.dropWhile_cons, isWsB_of_isDigitB c hc]
    have hne : (natToDigits (n + 1)).isEmpty = false := by
      simpa [List.isEmpty_iff] using natToDigits_ne_nil (n + 1)
    simp only [parseDecimalChars, h1, h2, List.reverse_reverse]
    simp [takeWhile_all_eq isDigitB _ hall, dropWhile_all_eq_nil isDigitB _ hall, hne,
      digitsToNat_natToDigits, Int.negSucc_eq]

theorem parseSignedInt_intToDecimalString (i : Int) :
    parseSignedInt (intToDecimalString i) = some i := by
  have : (intToDecimalString i).toList = (intToDecimalString i).toList := rfl
  unfold parseSignedInt
  exact parse_intToDecimalString true i

theorem parseIntStrict_intToDecimalString (i : Int) :
    parseIntStrict (intToDecimalString i) = some i := by
  unfold parseIntStrict
  exact parse_intToDecimalString false i

/-- Substring test on character lists (Python's `needle in haystack`). -/
def listIsPrefixOfB : List Char → List Char → Bool
  | [], _ => true
  | _ :: _, [] => false
  | a :: as, b :: bs => a = b && listIsPrefixOfB as bs

def listContainsB (needle : List Char) : List Char → Bool
  | [] => needle.isEmpty
  | c :: rest => listIsPrefixOfB needle (c :: rest) || listContainsB needle rest

def strContains (hay needle : String) : Bool :=
  listContainsB needle.toList hay.toList

/-- Kernel-reducible model of `String.startsWith`, used for SQL
`date LIKE 'prefix%'` filters (the patterns are digits and dashes, so LIKE's
ASCII case-insensitivity cannot fire). -/
def strStartsWith (s p : String) : Bool :=
  listIsPrefixOfB p.toList s.toList

/-- Zero-padded decimal rendering, model of Python's `f"{n:0Wd}"` for `n ≥ 0`. -/
def padNat (width n : Nat) : String :=
  let ds := natToDigits n
  ⟨List.replicate (width - ds.length) '0' ++ ds⟩

/-- The month-prefix helper of `backend/app/main.py`:
`f"{year:04d}-{month:02d}"` for the validated (hence non-negative)
year/month. -/
def monthPfx (year month : Nat) : String :=
  padNat 4 year ++ "-" ++ padNat 2 month

/-! ## Backend data model (`backend/app/main.py` + `backend/app/db.py`)

The `transactions` table (`db.py`) is `id TEXT PRIMARY KEY, date, amount,
description, merchant, method TEXT NOT NULL, direction, raw_category, memo
TEXT, is_excluded INTEGER, import_fingerprint TEXT`.  Every write path of
`main.py` sets all of the nullable text columns, so they are modelled as
plain `String`s; `import_fingerprint` is genuinely nullable and is modelled
as an `Option`. -/

/-- The six content-bearing fields that feed `_transaction_dedup_key` and the
fallback keys — the shape of the dicts `main.py` passes to those helpers. -/
structure TxContent where
  date : String
  amount : String
  description : String
  method : String
  direction : String
  raw_category : String
deriving DecidableEq, Repr

/-- A backend fingerprint.  The source computes
`sha256("|".join(_transaction_dedup_key(row)))`; the digest is only ever
compared for equality, so it is modelled as the dedup-key tuple itself
(i.e. SHA-256 is modelled as an injective function of the key). -/
abbrev Fingerprint := TxContent

/-- `_transaction_dedup_key`: the stripped 6-tuple
`(date, amount, description, method, direction, raw_category)`. -/
def transaction_dedup_key (c : TxContent) : TxContent :=
  { date := c.date.pyStrip
    amount := c.amount.pyStrip
    description := c.description.pyStrip
    method := c.method.pyStrip
    direction := c.direction.pyStrip
    raw_category := c.raw_category.pyStrip }

/-- `_transaction_fingerprint`: digest of the joined dedup key (see
`Fingerprint` for the digest model). -/
def transaction_fingerprint (c : TxContent) : Fingerprint :=
  transaction_dedup_key c

abbrev Key4 := String × String × String × String
abbrev Key3 := String × String × String

/-- `_transaction_fallback_key_with_method`: `(date, amount, direction, method)`. -/
def transaction_fallback_key_with_method (c : TxContent) : Key4 :=
  (c.date.pyStrip, c.amount.pyStrip, c.direction.pyStrip, c.method.pyStrip)

/-- `_transaction_fallback_key`: `(date, amount, direction)`. -/
def transaction_fallback_key (c : TxContent) : Key3 :=
  (c.date.pyStrip, c.amount.pyStrip, c.direction.pyStrip)

/-- `_transaction_fallback_key_without_amount`:
`(date, description, direction, method)`. -/
def transaction_fallback_key_without_amount (c : TxContent) : Key4 :=
  (c.date.pyStrip, c.description.pyStrip, c.direction.pyStrip, c.method.pyStrip)

/-- The three fallback keys are projections of the fingerprint tuple (whose
fields are already stripped), which lets key-level facts be phrased on
fingerprints without re-stripping. -/
def fpKey1 (f : Fingerprint) : Key4 := (f.date, f.amount, f.direction, f.method)

def fpKey2 (f : Fingerprint) : Key3 := (f.date, f.amount, f.direction)

def fpKey3 (f : Fingerprint) : Key4 := (f.date, f.description, f.direction, f.method)

theorem fallback_key_with_method_eq_fpKey1 (c : TxContent) :
    transaction_fallback_key_with_method c = fpKey1 (transaction_fingerprint c) := rfl

theorem fallback_key_eq_fpKey2 (c : TxContent) :
    transaction_fallback_key c = fpKey2 (transaction_fingerprint c) := rfl

theorem fallback_key_without_amount_eq_fpKey3 (c : TxContent) :
    transaction_fallback_key_without_amount c = fpKey3 (transaction_fingerprint c) := rfl

/-- One row of the backend `transactions` table. -/
structure Row where
  id : String
  date : String
  amount : String
  description : String
  merchant : String
  method : String
  direction : String
  raw_category : String
  memo : String
  is_excluded : Nat
  import_fingerprint : Option Fingerprint
deriving DecidableEq, Repr

/-- The dict `main.py` rebuilds from a fetched row for key computations. -/
def Row.content (w : Row) : TxContent :=
  { date := w.date, amount := w.amount, description := w.description
    method := w.method, direction := w.direction, raw_category := w.raw_category }

/-- One normalized candidate (the dicts produced by `_normalize_cleaned_row`
and `_normalize_tsv_row`). -/
structure NormRow where
  id : String
  date : String
  amount : String
  description : String
  merchant : String
  method : String
  direction : String
  raw_category : String
  memo : String
deriving DecidableEq, Repr

def NormRow.content (r : NormRow) : TxContent :=
  { date := r.date, amount := r.amount, description := r.description
    method := r.method, direction := r.direction, raw_category := r.raw_category }

/-- A normalized candidate with its generated id blanked out — two
normalizations of the same file line differ only in the fresh UUID. -/
def NormRow.dropId (r : NormRow) : NormRow := { r with id := "" }

/-! ### Row normalizers -/

/-- One `csv.DictReader` record of the *cleaned* schema; a missing column is
`none` and `row.get(k)` is `Option.getD`-style access. -/
structure CleanedInput where
  id : Option String := none
  date : Option String := none
  amount : Option String := none
  description : Option String := none
  merchant : Option String := none
  method : Option String := none
  direction : Option String := none
  raw_category : Option String := none
  memo : Option String := none
deriving Repr

/-- `_parse_amount_to_signed_int` applied to `row.get(k)`: `str(None)` is
`"None"`, which `Decimal` rejects, so a missing field parses to `none`. -/
def parseAmountField (v : Option String) : Option Int :=
  match v with
  | none => none
  | some s => parseSignedInt s

/-- `_normalize_cleaned_row` (`backend/app/main.py`).  `freshId` stands for
the `str(uuid.uuid4())` drawn when the input has no non-blank `id`. -/
def normalize_cleaned_row (row : CleanedInput) (freshId : String) : Option NormRow :=
  let date := (row.date.getD "").pyStrip
  if date = "" then none
  else
    match parseAmountField row.amount with
    | none => none
    | some amount =>
      let direction0 := ((row.direction.getD "").pyStrip).pyLower
      let direction :=
        if direction0 = "income" ∨ direction0 = "expense" then direction0
        else if 0 ≤ amount then "income" else "expense"
      let signed_amount : Int :=
        if direction = "income" then (amount.natAbs : Int) else -(amount.natAbs : Int)
      let description := (row.description.getD "").pyStrip
      if description = "" then none
      else
        let id0 := (row.id.getD "").pyStrip
        some
          { id := if id0 = "" then freshId else id0
            date := date
            amount := intToDecimalString signed_amount
            description := description
            merchant := if (row.merchant.getD "").pyStrip = "" then description
                        else (row.merchant.getD "").pyStrip
            method := (row.method.getD "").pyStrip
            direction := direction
            raw_category := if (row.raw_category.getD "").pyStrip = "" then "미분류"
                            else (row.raw_category.getD "").pyStrip
            memo := (row.memo.getD "").pyStrip }

/-- One `csv.DictReader` record of the *native export (가계부 TSV)* schema.
Field names romanize the Korean headers:
`date=날짜, amountStr=금액, txType=타입, description=내용, mainCategory=대분류,
subCategory=소분류, method=결제수단, memo=메모`. -/
structure TsvInput where
  date : Option String := none
  amountStr : Option String := none
  txType : Option String := none
  description : Option String := none
  mainCategory : Option String := none
  subCategory : Option String := none
  method : Option String := none
  memo : Option String := none
deriving Repr

/-- `TYPE_TO_DIRECTION` (`backend/app/main.py`): the backend's type table has
exactly the two entries `수입 → income` and `지출 → expense`. -/
def TYPE_TO_DIRECTION (t : String) : Option String :=
  if t = "수입" then some "income"
  else if t = "지출" then some "expense"
  else none

/-- `_normalize_tsv_row` (`backend/app/main.py`); `freshId` is the generated
`str(uuid.uuid4())`. -/
def normalize_tsv_row (row : TsvInput) (freshId : String) : Option NormRow :=
  let date := (row.date.getD "").pyStrip
  if date = "" then none
  else
    match parseSignedInt ((row.amountStr.getD "").removeCommas) with
    | none => none
    | some amount =>
      let tx_type := (row.txType.getD "").pyStrip
      let direction0 := TYPE_TO_DIRECTION tx_type
      let direction :=
        if direction0 = some "income" then "income"
        else if direction0 = some "expense" then "expense"
        else if 0 ≤ amount then "income" else "expense"
      let signed_amount : Int :=
        if direction = "income" then (amount.natAbs : Int) else -(amount.natAbs : Int)
      let description := (row.description.getD "").pyStrip
      if description = "" then none
      else
        let main_category := (row.mainCategory.getD "").pyStrip
        let sub_category := (row.subCategory.getD "").pyStrip
        let raw_category :=
          if main_category ≠ "" ∧ sub_category ≠ "" then
            main_category ++ ">" ++ sub_category
          else "미분류"
        some
          { id := freshId
            date := date
            amount := intToDecimalString signed_amount
            description := description
            merchant := description
            method := (row.method.getD "").pyStrip
            direction := direction
            raw_category := raw_category
            memo := (row.memo.getD "").pyStrip }

/-! ### Fallback-key maps and the import reconciler -/

/-- `dict[key, list[str]]` as an association list in key-insertion order. -/
abbrev FbMap (K : Type) := List (K × List String)

/-- `m.get(k, [])`. -/
def mapGet {K : Type} [DecidableEq K] (m : FbMap K) (k : K) : List String :=
  match m with
  | [] => []
  | (k', vs) :: rest => if k' = k then vs else mapGet rest k

/-- `m.setdefault(k, []).append(v)`. -/
def mapAppend {K : Type} [DecidableEq K] (m : FbMap K) (k : K) (v : String) : FbMap K :=
  match m with
  | [] => [(k, [v])]
  | (k', vs) :: rest =>
      if k' = k then (k', vs ++ [v]) :: rest else (k', vs) :: mapAppend rest k v

/-- The in-memory state of one `import_transactions` batch: the table, the
`seen_fingerprints` set, the three fallback maps and the duplicate counter. -/
structure ImportState where
  rows : List Row
  seen : List Fingerprint
  fbWith : FbMap Key4
  fb : FbMap Key3
  fbWo : FbMap Key4
  skipped : Nat
deriving Repr

/-- Third cascade level: `fallback_without_amount_map`. -/
def cascadeLevel3 (st : ImportState) (r : NormRow) : Option String :=
  match mapGet st.fbWo (transaction_fallback_key_without_amount r.content) with
  | [x] => some x
  | _ => none

/-- Second and third cascade levels: `fallback_map`, then level 3. -/
def cascadeLevel2 (st : ImportState) (r : NormRow) : Option String :=
  match mapGet st.fb (transaction_fallback_key r.content) with
  | [x] => some x
  | _ => cascadeLevel3 st r

/-- The full fallback cascade of `import_transactions`: most to least
specific key, matching only a level that yields exactly one candidate. -/
def matchCascade (st : ImportState) (r : NormRow) : Option String :=
  match mapGet st.fbWith (transaction_fallback_key_with_method r.content) with
  | [x] => some x
  | _ => cascadeLevel2 st r

/-- `AUTO_EXCLUDED_CATEGORIES` (`import_transactions`). -/
def AUTO_EXCLUDED_CATEGORIES : List String :=
  ["이체", "내부이체", "transfer", "internal transfer"]

/-- The row INSERTed for an unmatched candidate. -/
def insertedRow (r : NormRow) (fp : Fingerprint) (is_excluded : Nat) : Row :=
  { id := r.id, date := r.date, amount := r.amount, description := r.description
    merchant := r.merchant, method := r.method, direction := r.direction
    raw_category := r.raw_category, memo := r.memo, is_excluded := is_excluded
    import_fingerprint := some fp }

/-- One iteration of the `for row in normalized_rows` loop of
`import_transactions`: exact-fingerprint skip, else fallback match (rewrite
the matched row's fingerprint), else insert and register the new keys. -/
def processRow (st : ImportState) (r : NormRow) : ImportState :=
  let fp := transaction_fingerprint r.content
  if fp ∈ st.seen then { st with skipped := st.skipped + 1 }
  else
    match matchCascade st r with
    | some matchedId =>
        { st with
          rows := st.rows.map fun w =>
            if w.id = matchedId then { w with import_fingerprint := some fp } else w
          seen := fp :: st.seen
          skipped := st.skipped + 1 }
    | none =>
        let is_excluded := if r.raw_category.pyStrip ∈ AUTO_EXCLUDED_CATEGORIES then 1 else 0
        { st with
          rows := st.rows ++ [insertedRow r fp is_excluded]
          seen := fp :: st.seen
          fbWith := mapAppend st.fbWith (transaction_fallback_key_with_method r.content) r.id
          fb := mapAppend st.fb (transaction_fallback_key r.content) r.id
          fbWo := mapAppend st.fbWo
            (transaction_fallback_key_without_amount r.content) r.id }

/-- The one pass over `existing_rows` that builds `seen_fingerprints` and the
three fallback maps (`import_transactions`, before the row loop). -/
def initImportState (store : List Row) : ImportState :=
  { rows := store
    seen := store.filterMap Row.import_fingerprint
    fbWith := store.foldl
      (fun m w => mapAppend m (transaction_fallback_key_with_method w.content) w.id) []
    fb := store.foldl
      (fun m w => mapAppend m (transaction_fallback_key w.content) w.id) []
    fbWo := store.foldl
      (fun m w => mapAppend m (transaction_fallback_key_without_amount w.content) w.id) []
    skipped := 0 }

/-- The whole per-row phase of `import_transactions` over the (post month
replacement) store.  `imported` is reported as
`normalized.length - skipped`. -/
def importRows (store : List Row) (normalized : List NormRow) : ImportState :=
  normalized.foldl processRow (initImportState store)

/-! ### The import endpoint: month replacement and commit points

`import_transactions` runs its store mutations in two separate
`with get_connection(...)` blocks, each ending in its own `conn.commit()`:
the month-replacement `DELETE` (when `replace_month` is set) commits first,
and the whole per-row insert/update phase commits once at the end.  The
model returns the list of *committed* store states in order, so that
transactional behaviour (what a failure between commits leaves behind) is
statable. -/

inductive ImportError where
  /-- "가져올 수 있는 거래가 없습니다." — nothing normalized. -/
  | noRows
  /-- "여러 월 데이터가 포함되어 있어 교체할 월을 지정해야 합니다." -/
  | ambiguousMonth
  /-- "year/month 값이 올바르지 않습니다." -/
  | badYearMonth
  /-- Uncaught `ValueError` from `int(key[:4])` / `int(key[5:7])` on a
  non-numeric inferred month key. -/
  | monthKeyNotNumeric
deriving DecidableEq, Repr

/-- The per-batch result `{imported, skipped_duplicates, deleted}` together
with the sequence of committed store states. -/
structure ImportOutcome where
  commits : List (List Row)
  deleted : Nat
  imported : Nat
  skipped_duplicates : Nat
deriving DecidableEq, Repr

/-- The target year/month of a month replacement: the explicit form fields,
or the single month prefix of the candidates (`row["date"][:7]`), failing on
an ambiguous set (`여러 월 데이터...`) or a non-numeric key (uncaught
`ValueError` from `int(...)`). -/
def resolveTargetMonth (normalized : List NormRow) (year month : Option Int) :
    Except ImportError (Int × Int) :=
  match year, month with
  | some y, some m => pure (y, m)
  | _, _ =>
    match (normalized.filterMap fun r =>
        if 7 ≤ r.date.length then some (r.date.take 7) else none).dedup with
    | [key] =>
      match parseIntStrict (key.take 4), parseIntStrict ((key.drop 5).take 2) with
      | some y, some m => pure (y, m)
      | _, _ => throw .monthKeyNotNumeric
    | _ => throw .ambiguousMonth

/-- `import_transactions` (`backend/app/main.py`) from the point where
`normalized_rows` is available (upload decoding, delimiter and header
detection are the out-of-scope transport layer).  `year`/`month` are the
optional form fields.  The month-replacement `DELETE` runs and commits in
its own `with get_connection` block before the per-row phase starts; the
per-row phase commits once at its end — hence the two recorded commits in
the replacement mode and the single commit otherwise. -/
def import_transactions (store : List Row) (normalized : List NormRow)
    (replace_month : Bool) (year month : Option Int) :
    Except ImportError ImportOutcome := do
  if normalized.isEmpty then throw .noRows
  if replace_month then
    let (targetYear, targetMonth) ← resolveTargetMonth normalized year month
    if targetYear < 2000 ∨ 2100 < targetYear ∨ targetMonth < 1 ∨ 12 < targetMonth then
      throw .badYearMonth
    let pfx := monthPfx targetYear.toNat targetMonth.toNat
    -- first transaction: DELETE ... WHERE date LIKE ?, then conn.commit()
    let kept := store.filter fun w => !(strStartsWith w.date pfx)
    -- second transaction: the whole row loop, then conn.commit()
    let final := importRows kept normalized
    pure
      { commits := [kept, final.rows]
        deleted := store.length - kept.length
        imported := normalized.length - final.skipped
        skipped_duplicates := final.skipped }
  else
    -- the only transaction: the whole row loop, then conn.commit()
    let final := importRows store normalized
    pure
      { commits := [final.rows]
        deleted := 0
        imported := normalized.length - final.skipped
        skipped_duplicates := final.skipped }

/-! ### Single-row create and the two update paths -/

inductive ApiError where
  | badRequest
  | notFound
  | conflict
deriving DecidableEq, Repr

/-- `CreateTransactionRequest`; `direction` is constrained to
`income | expense` by the pydantic `Literal` before the handler runs. -/
structure CreateTransactionRequest where
  date : String
  direction : String
  category : String
  description : String
  amount : Int
  method : String := ""
  memo : String := ""
  excluded : Bool := false
deriving Repr

/-- `create_transaction` (`POST /api/transactions`); `freshId` is the
generated `str(uuid.uuid4())`. -/
def create_transaction (store : List Row) (payload : CreateTransactionRequest)
    (freshId : String) : Except ApiError (List Row × String) := do
  if payload.amount ≤ 0 then throw .badRequest
  let cleaned_date := payload.date.pyStrip
  if cleaned_date = "" then throw .badRequest
  let cleaned_category := if payload.category.pyStrip = "" then "미분류" else payload.category.pyStrip
  let cleaned_description := payload.description.pyStrip
  if cleaned_description = "" then throw .badRequest
  let signed_amount : Int :=
    if payload.direction = "income" then (payload.amount.natAbs : Int)
    else -(payload.amount.natAbs : Int)
  let fingerprint := transaction_fingerprint
    { date := cleaned_date
      amount := intToDecimalString signed_amount
      description := cleaned_description
      method := payload.method.pyStrip
      direction := payload.direction
      raw_category := cleaned_category }
  let row : Row :=
    { id := freshId, date := cleaned_date, amount := intToDecimalString signed_amount
      description := cleaned_description, merchant := cleaned_description
      method := payload.method.pyStrip, direction := payload.direction
      raw_category := cleaned_category, memo := payload.memo.pyStrip
      is_excluded := if payload.excluded then 1 else 0
      import_fingerprint := some fingerprint }
  pure (store ++ [row], freshId)

/-- `ExpenseTransactionUpdateRequest` / `IncomeTransactionUpdateRequest`
(field-for-field identical pydantic models). -/
structure TransactionUpdateRequest where
  date : Option String := none
  category : Option String := none
  description : Option String := none
  amount : Option Int := none
  method : Option String := none
  excluded : Option Bool := none
deriving Repr

/-- The `updates` dict built by `_build_transaction_updates`.  The SQL value
for `is_excluded` is the string `"1"`/`"0"`, coerced back to an integer by
the column's affinity; it is modelled as the resulting integer. -/
structure UpdatesDict where
  date : Option String := none
  raw_category : Option String := none
  description : Option String := none
  merchant : Option String := none
  method : Option String := none
  amount : Option String := none
  is_excluded : Option Nat := none
  import_fingerprint : Option Fingerprint := none
deriving Repr

/-- Python's `if not updates:` — the dict is empty iff no payload field was
provided (`import_fingerprint` is only added after this check). -/
def UpdatesDict.isEmpty (u : UpdatesDict) : Bool :=
  u.date.isNone && u.raw_category.isNone && u.description.isNone &&
  u.merchant.isNone && u.method.isNone && u.amount.isNone && u.is_excluded.isNone

/-- `_build_transaction_updates` (`backend/app/main.py`).  Each provided
payload field contributes its own updates key(s) independently; the two
validation errors fire in source order (blank date, then non-positive
amount). -/
def build_transaction_updates (payload : TransactionUpdateRequest)
    (direction : String) : Except ApiError UpdatesDict := do
  let dateU : Option String ←
    match payload.date with
    | some d => if d.pyStrip = "" then throw .badRequest else pure (some d.pyStrip)
    | none => pure none
  let categoryU : Option String :=
    payload.category.map fun c => if c.pyStrip = "" then "미분류" else c.pyStrip
  let descriptionU : Option String := payload.description.map String.pyStrip
  let methodU : Option String := payload.method.map String.pyStrip
  let amountU : Option String ←
    match payload.amount with
    | some a =>
      if a ≤ 0 then throw .badRequest
      else
        pure (some (intToDecimalString
          (if direction = "expense" then -(a.natAbs : Int) else (a.natAbs : Int))))
    | none => pure none
  let excludedU : Option Nat := payload.excluded.map fun e => if e then 1 else 0
  pure
    { date := dateU, raw_category := categoryU, description := descriptionU
      merchant := descriptionU, method := methodU, amount := amountU
      is_excluded := excludedU }

/-- Apply an `updates` dict to one row (`UPDATE transactions SET ...`). -/
def applyUpdates (w : Row) (u : UpdatesDict) : Row :=
  { w with
    date := u.date.getD w.date
    raw_category := u.raw_category.getD w.raw_category
    description := u.description.getD w.description
    merchant := u.merchant.getD w.merchant
    method := u.method.getD w.method
    amount := u.amount.getD w.amount
    is_excluded := u.is_excluded.getD w.is_excluded
    import_fingerprint :=
      match u.import_fingerprint with
      | some f => some f
      | none => w.import_fingerprint }

/-- `_apply_transaction_update`: `UPDATE ... WHERE id = ? AND direction = ?`;
returns the new table and the `rowcount`. -/
def apply_transaction_update (store : List Row) (transaction_id : String)
    (u : UpdatesDict) (direction : String) : List Row × Nat :=
  (store.map fun w =>
      if w.id = transaction_id ∧ w.direction = direction then applyUpdates w u else w,
   (store.filter fun w => w.id = transaction_id ∧ w.direction = direction).length)

/-- `update_expense_transaction` / `update_income_transaction`
(`PATCH /api/{direction}-transactions/{id}`): the two handlers are textually
identical up to the direction literal, modelled once with `direction` as a
parameter.  Fetch the row, merge updated fields over current ones, recompute
the fingerprint from the merged content, and apply everything. -/
def update_transaction_by_id (direction : String) (store : List Row)
    (transaction_id : String) (payload : TransactionUpdateRequest) :
    Except ApiError (List Row) := do
  let updates ← build_transaction_updates payload direction
  if updates.isEmpty then throw .badRequest
  match store.find? fun w => w.id = transaction_id ∧ w.direction = direction with
  | none => throw .notFound
  | some row =>
    let updated_date := updates.date.getD row.date
    let updated_amount := updates.amount.getD row.amount
    let updated_description := updates.description.getD row.description
    let updated_method := updates.method.getD row.method
    let updated_category := updates.raw_category.getD row.raw_category
    let new_fingerprint := transaction_fingerprint
      { date := updated_date, amount := updated_amount
        description := updated_description, method := updated_method
        direction := direction, raw_category := updated_category }
    let updates := { updates with import_fingerprint := some new_fingerprint }
    let (store', rowcount) := apply_transaction_update store transaction_id updates direction
    if rowcount = 0 then throw .notFound
    pure store'

/-- `ExpenseTransactionMatchRequest` / `IncomeTransactionMatchRequest`:
the caller-supplied snapshot of the row to update. -/
structure TransactionMatchRequest where
  date : String
  category : String
  description : String
  amount : Int
  method : String
  excluded : Bool := false
deriving Repr

/-- `update_expense_transaction_by_match` / `update_income_transaction_by_match`
(`PATCH /api/{direction}-transactions`), modelled once with `direction` as a
parameter (the two handlers are textually identical up to the literal).
Note: unlike the by-id path, this handler never recomputes
`import_fingerprint`; it applies only the `_build_transaction_updates`
fields. -/
def update_transaction_by_match (direction : String) (store : List Row)
    (original : TransactionMatchRequest) (updated : TransactionUpdateRequest) :
    Except ApiError (List Row) := do
  let updates ← build_transaction_updates updated direction
  if updates.isEmpty then throw .badRequest
  if original.amount ≤ 0 then throw .badRequest
  let rows := store.filter fun w =>
    w.direction = direction ∧ w.date = original.date.pyStrip ∧
    w.raw_category = original.category.pyStrip ∧
    w.description = original.description.pyStrip ∧
    w.method = original.method.pyStrip ∧
    w.is_excluded = (if original.excluded then 1 else 0)
  let matched_ids := (rows.filter fun w =>
    match parseAbsInt w.amount with
    | some a => (a : Int) = original.amount
    | none => False).map Row.id
  match matched_ids with
  | [] => throw .notFound
  | [onlyId] =>
    let (store', rowcount) := apply_transaction_update store onlyId updates direction
    if rowcount = 0 then throw .notFound
    pure store'
  | _ => throw .conflict

/-! ### Monthly summary -/

/-- The aggregate state of the `summary` loop. -/
structure SummaryAcc where
  income : Nat
  expense : Nat
  transaction_count : Nat
deriving DecidableEq, Repr

/-- One iteration of the `for row in rows` loop of `summary`. -/
def summaryStep (acc : SummaryAcc) (w : Row) : SummaryAcc :=
  match parseAbsInt w.amount with
  | none => acc
  | some amount =>
    let direction := w.direction.pyStrip.pyLower
    let is_excluded := w.is_excluded ≠ 0
    let acc := { acc with transaction_count := acc.transaction_count + 1 }
    if is_excluded ∧ (direction = "income" ∨ direction = "expense") then acc
    else if direction = "income" then { acc with income := acc.income + amount }
    else if direction = "expense" then { acc with expense := acc.expense + amount }
    else acc

/-- `summary` (`GET /api/summary`): select the month's rows and fold. -/
def summary (store : List Row) (year month : Nat) : SummaryAcc :=
  let pfx := monthPfx year month
  let rows := store.filter fun w => strStartsWith w.date pfx
  rows.foldl summaryStep { income := 0, expense := 0, transaction_count := 0 }

/-! ## Ledger (MVP) variant — `src/bankpoke/mvp.py`

Datetimes: `mvp.py` round-trips timestamps through `datetime.strptime` /
`strftime`.  A parsed datetime is modelled as a validated record, with
`strptime` as a strict fixed-width parser (the claims only exercise
well-formed zero-padded timestamps) and subtraction via an absolute-seconds
conversion using the proleptic Gregorian calendar, as `datetime` does. -/

structure DateTimeV where
  year : Nat
  month : Nat
  day : Nat
  hour : Nat
  minute : Nat
  second : Nat
deriving DecidableEq, Repr

def isLeapYear (y : Nat) : Bool :=
  (y % 4 = 0 && !(y % 100 = 0)) || y % 400 = 0

def daysInMonth (y m : Nat) : Nat :=
  if m = 2 then (if isLeapYear y then 29 else 28)
  else if m = 4 ∨ m = 6 ∨ m = 9 ∨ m = 11 then 30
  else 31

/-- Days in the months strictly before `m` of year `y`. -/
def daysBeforeMonth (y m : Nat) : Nat :=
  (List.range (m - 1)).foldl (fun acc i => acc + daysInMonth y (i + 1)) 0

/-- Days from 0001-01-01 to the given date, then seconds within the day —
the proleptic Gregorian ordinal `datetime` arithmetic is based on. -/
def toAbsSeconds (dt : DateTimeV) : Int :=
  let y := dt.year - 1
  let days := 365 * y + y / 4 - y / 100 + y / 400 + daysBeforeMonth dt.year dt.month
    + (dt.day - 1)
  (days : Int) * 86400 + dt.hour * 3600 + dt.minute * 60 + dt.second

/-- Read exactly `k` digit characters as a number. -/
def takeNDigits (k : Nat) (cs : List Char) : Option (Nat × List Char) :=
  match k with
  | 0 => some (0, cs)
  | k' + 1 =>
    match cs with
    | [] => none
    | c :: rest =>
      if isDigitB c then
        (takeNDigits k' rest).map fun (n, rest') => ((c.toNat - 48) * 10 ^ k' + n, rest')
      else none

/-- Expect one literal character. -/
def expectChar (c : Char) (cs : List Char) : Option (List Char) :=
  match cs with
  | [] => none
  | c' :: rest => if c' = c then some rest else none

/-- Model of `datetime.strptime` for `"%Y-%m-%d %H:%M"` (`withSeconds :=
false`) and `"%Y-%m-%d %H:%M:%S"` (`withSeconds := true`): fixed-width
zero-padded fields, trailing input refused, calendar-validated (out-of-range
fields make `strptime` raise, which surfaces as `none`). -/
def strptimeDateTime (withSeconds : Bool) (s : String) : Option DateTimeV := do
  let cs := s.toList
  let (y, cs) ← takeNDigits 4 cs
  let cs ← expectChar '-' cs
  let (mo, cs) ← takeNDigits 2 cs
  let cs ← expectChar '-' cs
  let (d, cs) ← takeNDigits 2 cs
  let cs ← expectChar ' ' cs
  let (h, cs) ← takeNDigits 2 cs
  let cs ← expectChar ':' cs
  let (mi, cs) ← takeNDigits 2 cs
  let (sec, cs) ←
    if withSeconds then do
      let cs ← expectChar ':' cs
      takeNDigits 2 cs
    else
      pure (0, cs)
  if cs.isEmpty ∧ 1 ≤ mo ∧ mo ≤ 12 ∧ 1 ≤ d ∧ d ≤ daysInMonth y mo ∧
      h ≤ 23 ∧ mi ≤ 59 ∧ sec ≤ 59 ∧ 1 ≤ y then
    some { year := y, month := mo, day := d, hour := h, minute := mi, second := sec }
  else none

/-- Model of `strftime("%Y-%m-%d %H:%M:%S")`. -/
def strftimeDateTime (dt : DateTimeV) : String :=
  padNat 4 dt.year ++ "-" ++ padNat 2 dt.month ++ "-" ++ padNat 2 dt.day ++ " " ++
  padNat 2 dt.hour ++ ":" ++ padNat 2 dt.minute ++ ":" ++ padNat 2 dt.second

/-- One row of the MVP `transactions` table (`init_db` in `mvp.py`).
`row_hash` is `sha256` of the `"|"`-joined hash-input fields; as with the
backend fingerprint the digest is modelled injectively, as the list of the
joined fields.  `transfer_group_id` is the nullable `md5` group id. -/
structure MvpRow where
  id : Nat
  occurred_at : String
  type : String
  amount : Int
  signed_amount : Int
  currency : String
  major_category : Option String
  minor_category : Option String
  content : Option String
  payment_method : Option String
  note : Option String
  row_hash : List String
  transfer_group_id : Option String
  transfer_external : Nat
  review_required : Nat
deriving DecidableEq, Repr

/-- `TYPE_MAP` (`mvp.py`): the ledger's three-way type table. -/
def TYPE_MAP (t : String) : Option String :=
  if t = "수입" then some "income"
  else if t = "지출" then some "expense"
  else if t = "이체" then some "transfer"
  else none

/-- `LedgerService._none_if_blank`. -/
def none_if_blank (value : Option String) : Option String :=
  match value with
  | none => none
  | some v => if v.pyStrip = "" then none else some v.pyStrip

/-- Byte-lexicographic string order, the model of SQLite's BINARY collation
for `ORDER BY occurred_at` (UTF-8 byte order agrees with code-point order). -/
def strLeB (a b : String) : Bool :=
  charListLeB a.toList b.toList
where
  charListLeB : List Char → List Char → Bool
    | [], _ => true
    | _ :: _, [] => false
    | c :: cs, d :: ds => if c = d then charListLeB cs ds else decide (c < d)

/-- The keyword list of `LedgerService._is_internal_transfer`. -/
def INTERNAL_TRANSFER_KEYWORDS : List String :=
  ["세이프박스", "내계좌로 이체", "동전 모으기", "저금통", "카드잔액 자동충전"]

/-- `LedgerService._is_internal_transfer`. -/
def is_internal_transfer (content : Option String) : Bool :=
  match content with
  | none => false
  | some c => INTERNAL_TRANSFER_KEYWORDS.any fun k => strContains c k

/-- One `csv.DictReader` record of the ledger TSV.  Field names romanize the
Korean headers: `date=날짜, time=시간, txType=타입, amountStr=금액,
currency=화폐, content=내용, method=결제수단, mainCategory=대분류,
subCategory=소분류, note=메모`. -/
structure LedgerTsvInput where
  date : Option String := none
  time : Option String := none
  txType : Option String := none
  amountStr : Option String := none
  currency : Option String := none
  content : Option String := none
  method : Option String := none
  mainCategory : Option String := none
  subCategory : Option String := none
  note : Option String := none
deriving Repr

/-- The dict produced by `LedgerService._normalize_row` (without the `id`,
which SQLite assigns on insert). -/
structure MvpNormalized where
  occurred_at : String
  type : String
  amount : Int
  signed_amount : Int
  currency : String
  major_category : Option String
  minor_category : Option String
  content : Option String
  payment_method : Option String
  note : Option String
  row_hash : List String
  transfer_external : Nat
  review_required : Nat
deriving DecidableEq, Repr

/-- The uncaught exceptions `LedgerService._normalize_row` can raise (which
abort the whole `import_tsv` batch). -/
inductive MvpNormalizeError where
  /-- `ValueError` from `datetime.strptime` on a malformed date/time. -/
  | strptimeError
  /-- `ValueError` from `int(...)` on a non-integer amount string. -/
  | intError
deriving DecidableEq, Repr

/-- `LedgerService._normalize_row` (`mvp.py`).  `Except.ok none` is the
row being silently dropped (`return None`); `Except.error` is an uncaught
exception. -/
def mvp_normalize_row (row : LedgerTsvInput) :
    Except MvpNormalizeError (Option MvpNormalized) := do
  let date_s := (row.date.getD "").pyStrip
  let time0 := row.time.getD ""
  let time_s := (if time0 = "" then "00:00" else time0).pyStrip
  if date_s = "" then return none
  let occurred ←
    match strptimeDateTime false (date_s ++ " " ++ time_s) with
    | none => throw .strptimeError
    | some dt => pure dt
  let raw_type := (row.txType.getD "").pyStrip
  let tx_type := (TYPE_MAP raw_type).getD "transfer"
  let amount0 := ((row.amountStr.getD "0").removeCommas).pyStrip
  let signed_amount ←
    match parseIntStrict (if amount0 = "" then "0" else amount0) with
    | none => throw .intError
    | some v => pure v
  let amount : Int := (signed_amount.natAbs : Int)
  let currency0 := row.currency.getD ""
  let currency1 := (if currency0 = "" then "KRW" else currency0).pyStrip
  let currency := if currency1 = "" then "KRW" else currency1
  let content := none_if_blank row.content
  let payment_method := none_if_blank row.method
  let major_category := none_if_blank row.mainCategory
  let minor_category := none_if_blank row.subCategory
  let note := none_if_blank row.note
  let review_required : Nat :=
    if tx_type = "expense" ∧ 0 < signed_amount then 1
    else if tx_type = "income" ∧ signed_amount < 0 then 1
    else 0
  let transfer_external : Nat :=
    if tx_type = "transfer" ∧ ¬(is_internal_transfer content = true) then 1 else 0
  let row_hash : List String :=
    [date_s, time_s, raw_type, intToDecimalString signed_amount, currency,
     payment_method.getD "", content.getD ""]
  return some
    { occurred_at := strftimeDateTime occurred
      type := tx_type
      amount := amount
      signed_amount := signed_amount
      currency := currency
      major_category := major_category
      minor_category := minor_category
      content := content
      payment_method := payment_method
      note := note
      row_hash := row_hash
      transfer_external := transfer_external
      review_required := review_required }

/-- The `md5(f"{left_id}:{right_id}")` transfer group id; the digest is
modelled as the injective encoding of its input. -/
def mvpGroupId (leftId rightId : Nat) : String :=
  intToDecimalString leftId ++ ":" ++ intToDecimalString rightId

/-- The inner `for right in candidates` loop of
`LedgerService._pair_internal_transfers`: first candidate (ascending time)
that is unused, distinct from `left`, same currency, exactly opposite signed
amount, and within five minutes.  `none` models an uncaught `strptime`
exception; `some none` means no counterpart was found. -/
def pairFindRight (used : List Nat) (left : MvpRow) (leftSecs : Int) :
    List MvpRow → Option (Option MvpRow)
  | [] => some none
  | r :: rest =>
    if r.id ∈ used ∨ r.id = left.id then pairFindRight used left leftSecs rest
    else if r.currency ≠ left.currency then pairFindRight used left leftSecs rest
    else if r.signed_amount ≠ -left.signed_amount then pairFindRight used left leftSecs rest
    else
      match strptimeDateTime true r.occurred_at with
      | none => none
      | some rdt =>
        if 300 < (toAbsSeconds rdt - leftSecs).natAbs then
          pairFindRight used left leftSecs rest
        else some (some r)

/-- The outer `for left in candidates` loop of `_pair_internal_transfers`,
threading the table and the `used` set. -/
def pairOuter (cands : List MvpRow) :
    List MvpRow → List MvpRow × List Nat → Option (List MvpRow × List Nat)
  | [], st => some st
  | left :: rest, (store, used) =>
    if left.id ∈ used then pairOuter cands rest (store, used)
    else if ¬(is_internal_transfer left.content = true) then pairOuter cands rest (store, used)
    else
      match strptimeDateTime true left.occurred_at with
      | none => none
      | some ldt =>
        match pairFindRight used left (toAbsSeconds ldt) cands with
        | none => none
        | some none => pairOuter cands rest (store, used)
        | some (some right) =>
          let group_id := mvpGroupId left.id right.id
          let store' := store.map fun w =>
            if w.id = left.id ∨ w.id = right.id then
              { w with transfer_group_id := some group_id, review_required := 0 }
            else w
          pairOuter cands rest (store', used ++ [left.id, right.id])

/-- `LedgerService._pair_internal_transfers` (`mvp.py`): select the ungrouped
transfer rows ordered by `occurred_at` ascending (`List.insertionSort` is the
stable model of `ORDER BY`), then run the pairing loops.  `none` models an
uncaught `strptime` exception. -/
def mvp_pair_internal_transfers (store : List MvpRow) : Option (List MvpRow) :=
  let cands := (store.filter fun w =>
    w.type = "transfer" ∧ w.transfer_group_id = none).insertionSort
    fun a b => strLeB a.occurred_at b.occurred_at = true
  (pairOuter cands cands (store, [])).map Prod.fst

/-- The rows `LedgerService.unmatched_transfers` lists (ungrouped transfer
rows, ascending time). -/
def mvp_unmatched_transfers (store : List MvpRow) : List MvpRow :=
  (store.filter fun w => w.type = "transfer" ∧ w.transfer_group_id = none).insertionSort
    fun a b => strLeB a.occurred_at b.occurred_at = true

/-! ## Derived predicates and the write-operation surface -/

/-- Sign/direction consistency of one stored backend row: the amount parses,
income rows are non-negative and expense rows non-positive. -/
def signConsistentB (w : Row) : Bool :=
  match parseSignedInt w.amount with
  | some v =>
    (!(w.direction == "income") || decide (0 ≤ v)) &&
    (!(w.direction == "expense") || decide (v ≤ 0))
  | none => false

/-- The store-level sign invariant. -/
def SignInvariant (store : List Row) : Prop :=
  ∀ w ∈ store, signConsistentB w = true

/-- A candidate actually produced by one of the two backend normalizers. -/
def NormalizedOutput (r : NormRow) : Prop :=
  (∃ row fid, normalize_cleaned_row row fid = some r) ∨
  (∃ row fid, normalize_tsv_row row fid = some r)

/-- Sign/direction consistency of a normalized candidate: its amount string
prints an integer that is non-negative for income and non-positive for
expense. -/
def NormRowSign (r : NormRow) : Prop :=
  ∃ v : Int, r.amount = intToDecimalString v ∧
    (r.direction = "income" → 0 ≤ v) ∧ (r.direction = "expense" → v ≤ 0)

/-- The write operations of the backend store surface. -/
inductive StoreOp where
  /-- `POST /api/transactions/import` (with its optional month replacement). -/
  | importBatch (normalized : List NormRow) (replace_month : Bool)
      (year month : Option Int)
  /-- `POST /api/transactions`. -/
  | create (payload : CreateTransactionRequest) (freshId : String)
  /-- `PATCH /api/{direction}-transactions/{id}`. -/
  | updateById (direction transaction_id : String) (payload : TransactionUpdateRequest)
  /-- `PATCH /api/{direction}-transactions`. -/
  | updateByMatch (direction : String) (original : TransactionMatchRequest)
      (updated : TransactionUpdateRequest)

/-- The store produced by one operation; a failed request leaves the store
untouched (all validation precedes mutation, and handler errors roll back). -/
def applyStoreOp (store : List Row) : StoreOp → List Row
  | .importBatch normalized rm y m =>
    match import_transactions store normalized rm y m with
    | .ok out => out.commits.getLastD store
    | .error _ => store
  | .create payload freshId =>
    match create_transaction store payload freshId with
    | .ok (store', _) => store'
    | .error _ => store
  | .updateById direction tid payload =>
    match update_transaction_by_id direction store tid payload with
    | .ok store' => store'
    | .error _ => store
  | .updateByMatch direction original updated =>
    match update_transaction_by_match direction store original updated with
    | .ok store' => store'
    | .error _ => store

/-- Side conditions the HTTP layer guarantees before a handler runs: import
candidates come from a normalizer, and the direction-scoped endpoints exist
only for the two directions of the pydantic `Literal`. -/
def StoreOpValid : StoreOp → Prop
  | .importBatch normalized _ _ _ => ∀ r ∈ normalized, NormalizedOutput r
  | .create payload _ => payload.direction = "income" ∨ payload.direction = "expense"
  | .updateById direction _ _ => direction = "income" ∨ direction = "expense"
  | .updateByMatch direction _ _ => direction = "income" ∨ direction = "expense"

/-! ## Concrete fixtures used by counterexamples and witnesses -/

/-- A normalized "coffee" expense candidate (cleaned schema shape). -/
def coffeeNorm : NormRow :=
  { id := "a1", date := "2024-01-05", amount := "-5000", description := "coffee"
    merchant := "coffee", method := "card", direction := "expense"
    raw_category := "misc", memo := "" }

/-- A stored row whose content matches `coffeeNorm` and whose fingerprint is
the fingerprint of that content (a freshly imported row). -/
def coffeeRow : Row :=
  { id := "a1", date := "2024-01-05", amount := "-5000", description := "coffee"
    merchant := "coffee", method := "card", direction := "expense"
    raw_category := "misc", memo := "", is_excluded := 0
    import_fingerprint := some (transaction_fingerprint coffeeNorm.content) }

/-- A stored row carrying a *stale* fingerprint: its content was edited
through the by-snapshot update path (which does not recompute fingerprints),
so its stored fingerprint is still `coffeeNorm`'s. -/
def staleFingerprintRow : Row :=
  { id := "w1", date := "2024-02-01", amount := "-700", description := "edited"
    merchant := "edited", method := "cash", direction := "expense"
    raw_category := "food", memo := "", is_excluded := 0
    import_fingerprint := some (transaction_fingerprint coffeeNorm.content) }

/-- A candidate whose level-1 fallback key matches `staleFingerprintRow`'s
current content (same date/amount/direction/method, different description). -/
def editMatchingNorm : NormRow :=
  { id := "a2", date := "2024-02-01", amount := "-700", description := "other"
    merchant := "other", method := "cash", direction := "expense"
    raw_category := "food2", memo := "" }

/-- A candidate in 2024-01 distinct from `coffeeNorm` (for month replacement). -/
def teaNorm : NormRow :=
  { id := "a3", date := "2024-01-07", amount := "-700", description := "tea"
    merchant := "tea", method := "card", direction := "expense"
    raw_category := "misc", memo := "" }

/-- An ungrouped internal-transfer leg (`세이프박스` is in the keyword list). -/
def safeboxTransfer : MvpRow :=
  { id := 1, occurred_at := "2026-02-13 10:24:00", type := "transfer"
    amount := 1000, signed_amount := 1000, currency := "KRW"
    major_category := none, minor_category := none, content := some "세이프박스"
    payment_method := none, note := none
    row_hash := ["2026-02-13", "10:24", "이체", "1000", "KRW", "", "세이프박스"]
    transfer_group_id := none, transfer_external := 0, review_required := 0 }

/-- An ungrouped *income* row with the exactly opposite amount, identical
currency and identical timestamp. -/
def oppositeIncomeRow : MvpRow :=
  { id := 2, occurred_at := "2026-02-13 10:24:00", type := "income"
    amount := 1000, signed_amount := -1000, currency := "KRW"
    major_category := none, minor_category := none, content := some "급여"
    payment_method := none, note := none
    row_hash := ["2026-02-13", "10:24", "수입", "-1000", "KRW", "", "급여"]
    transfer_group_id := none, transfer_external := 0, review_required := 0 }

/-- The opposite transfer leg three minutes later. -/
def oppositeTransferRow : MvpRow :=
  { id := 2, occurred_at := "2026-02-13 10:27:00", type := "transfer"
    amount := 1000, signed_amount := -1000, currency := "KRW"
    major_category := none, minor_category := none, content := some "내계좌로 이체"
    payment_method := none, note := none
    row_hash := ["2026-02-13", "10:27", "이체", "-1000", "KRW", "", "내계좌로 이체"]
    transfer_group_id := none, transfer_external := 0, review_required := 0 }

/-- A cleaned-schema input with an explicit `expense` direction and amount 0. -/
def zeroExpenseInput : CleanedInput :=
  { date := some "2024-01-01", amount := some "0", description := some "x"
    direction := some "expense" }

/-- What `_normalize_cleaned_row` produces on `zeroExpenseInput`. -/
def zeroExpenseNorm : NormRow :=
  { id := "z1", date := "2024-01-01", amount := "0", description := "x"
    merchant := "x", method := "", direction := "expense"
    raw_category := "미분류", memo := "" }

/-- A native-export input whose type is `이체` (transfer) with a positive
amount. -/
def transferTypedTsvInput : TsvInput :=
  { date := some "2024-01-02", amountStr := some "1000", txType := some "이체"
    description := some "move" }

/-- A ledger TSV input whose description (`내용`) is blank. -/
def blankDescriptionLedgerInput : LedgerTsvInput :=
  { date := some "2026-02-13", time := some "10:24", txType := some "지출"
    amountStr := some "-100", content := some "" }

/-- What `LedgerService._normalize_row` produces on
`blankDescriptionLedgerInput`. -/
def blankDescriptionLedgerNormalized : MvpNormalized :=
  { occurred_at := "2026-02-13 10:24:00", type := "expense", amount := 100
    signed_amount := -100, currency := "KRW", major_category := none
    minor_category := none, content := none, payment_method := none, note := none
    row_hash := ["2026-02-13", "10:24", "지출", "-100", "KRW", "", ""]
    transfer_external := 0, review_required := 0 }

/-- The parsed timestamp of `blankDescriptionLedgerInput`. -/
def ledgerSampleDT : DateTimeV :=
  { year := 2026, month := 2, day := 13, hour := 10, minute := 24, second := 0 }

/-- Two stored rows sharing every fallback key of `teaNorm` (they differ only
in id and category), for ambiguity scenarios. -/
def ambTeaRow1 : Row :=
  { id := "x1", date := "2024-01-07", amount := "-700", description := "tea"
    merchant := "tea", method := "card", direction := "expense"
    raw_category := "misc", memo := "", is_excluded := 0, import_fingerprint := none }

def ambTeaRow2 : Row :=
  { id := "x2", date := "2024-01-07", amount := "-700", description := "tea"
    merchant := "tea", method := "card", direction := "expense"
    raw_category := "other", memo := "", is_excluded := 0, import_fingerprint := none }

/-! ## General lemmas about the import reconciler -/

theorem processRow_skipped_le (st : ImportState) (r : NormRow) :
    st.skipped ≤ (processRow st r).skipped := by
  unfold processRow
  by_cases hfp : transaction_fingerprint r.content ∈ st.seen
  · simp [hfp]
  · simp only [hfp, if_false]
    cases matchCascade st r <;> simp

theorem foldl_processRow_skipped_le (rows : List NormRow) (st : ImportState) :
    st.skipped ≤ (rows.foldl processRow st).skipped := by
  induction rows generalizing st with
  | nil => exact Nat.le_refl _
  | cons r rest ih =>
    exact Nat.le_trans (processRow_skipped_le st r) (ih (processRow st r))

/-- A step that does not increment `skipped_duplicates` is exactly a fresh
insert: the fingerprint was unseen, the cascade failed, and the state grows
by the inserted row and its keys. -/
theorem processRow_of_skipped_eq (st : ImportState) (r : NormRow)
    (h : (processRow st r).skipped = st.skipped) :
    transaction_fingerprint r.content ∉ st.seen ∧
    matchCascade st r = none ∧
    processRow st r =
      { rows := st.rows ++ [insertedRow r (transaction_fingerprint r.content)
          (if r.raw_category.pyStrip ∈ AUTO_EXCLUDED_CATEGORIES then 1 else 0)]
        seen := transaction_fingerprint r.content :: st.seen
        fbWith := mapAppend st.fbWith (transaction_fallback_key_with_method r.content) r.id
        fb := mapAppend st.fb (transaction_fallback_key r.content) r.id
        fbWo := mapAppend st.fbWo (transaction_fallback_key_without_amount r.content) r.id
        skipped := st.skipped } := by
  by_cases hfp : transaction_fingerprint r.content ∈ st.seen
  · exfalso
    have : (processRow st r).skipped = st.skipped + 1 := by
      unfold processRow
      simp [hfp]
    omega
  · cases hmc : matchCascade st r with
    | some mid =>
      exfalso
      have : (processRow st r).skipped = st.skipped + 1 := by
        unfold processRow
        simp [hfp, hmc]
      omega
    | none =>
      refine ⟨hfp, rfl, ?_⟩
      unfold processRow
      simp [hfp, hmc]

theorem processRow_seen_mono (st : ImportState) (r : NormRow) (f : Fingerprint)
    (hf : f ∈ st.seen) : f ∈ (processRow st r).seen := by
  unfold processRow
  by_cases hfp : transaction_fingerprint r.content ∈ st.seen
  · simpa [hfp] using hf
  · simp only [hfp, if_false]
    cases matchCascade st r <;> simp [hf]

theorem foldl_processRow_seen_mono (rows : List NormRow) (st : ImportState)
    (f : Fingerprint) (hf : f ∈ st.seen) : f ∈ (rows.foldl processRow st).seen := by
  induction rows generalizing st with
  | nil => exact hf
  | cons r rest ih => exact ih (processRow st r) (processRow_seen_mono st r f hf)

/-- A batch whose `skipped_duplicates` counter never moved inserted every
candidate in order, and registered every candidate's fingerprint. -/
theorem foldl_processRow_of_no_skips (rows : List NormRow) (st : ImportState)
    (h : (rows.foldl processRow st).skipped = st.skipped) :
    (rows.foldl processRow st).rows =
      st.rows ++ rows.map (fun r => insertedRow r (transaction_fingerprint r.content)
        (if r.raw_category.pyStrip ∈ AUTO_EXCLUDED_CATEGORIES then 1 else 0)) ∧
    ∀ r ∈ rows, transaction_fingerprint r.content ∈ (rows.foldl processRow st).seen := by
  induction rows generalizing st with
  | nil => simp
  | cons r rest ih =>
    have hstep : (processRow st r).skipped = st.skipped := by
      have h1 := processRow_skipped_le st r
      have h2 := foldl_processRow_skipped_le rest (processRow st r)
      simp only [List.foldl_cons] at h
      omega
    obtain ⟨hfp, hmc, heq⟩ := processRow_of_skipped_eq st r hstep
    simp only [List.foldl_cons] at h ⊢
    have hrest := ih (processRow st r) (by rw [h, hstep])
    constructor
    · rw [hrest.1, heq]
      simp
    · intro r' hr'
      rcases List.mem_cons.mp hr' with hr' | hr'
      · subst hr'
        refine foldl_processRow_seen_mono rest (processRow st r') _ ?_
        rw [heq]
        exact List.mem_cons_self _ _
      · exact hrest.2 r' hr'

/-- A batch all of whose candidates' fingerprints are already in
`seen_fingerprints` only counts duplicates: no store write of any kind. -/
theorem foldl_processRow_of_all_seen (rows : List NormRow) (st : ImportState)
    (h : ∀ r ∈ rows, transaction_fingerprint r.content ∈ st.seen) :
    rows.foldl processRow st = { st with skipped := st.skipped + rows.length } := by
  induction rows generalizing st with
  | nil => simp
  | cons r rest ih =>
    have hfp : transaction_fingerprint r.content ∈ st.seen := h r (List.mem_cons_self _ _)
    have hstep : processRow st r = { st with skipped := st.skipped + 1 } := by
      unfold processRow
      simp [hfp]
    simp only [List.foldl_cons, hstep]
    rw [ih { st with skipped := st.skipped + 1 }
      (by intro r' hr'; exact h r' (List.mem_cons_of_mem _ hr'))]
    simp only [List.length_cons]
    congr 1
    omega

/-! ## Lemmas about the update machinery -/

/-- What a successful `_build_transaction_updates` run produced: never a
fingerprint entry, and an amount entry only for a positive payload amount,
signed according to the endpoint's direction. -/
theorem build_transaction_updates_shape (p : TransactionUpdateRequest) (d : String)
    (u : UpdatesDict) (h : build_transaction_updates p d = .ok u) :
    u.import_fingerprint = none ∧
    (u.amount = none ∨ ∃ a, p.amount = some a ∧ 0 < a ∧
      u.amount = some (intToDecimalString
        (if d = "expense" then -(a.natAbs : Int) else (a.natAbs : Int)))) := by
  unfold build_transaction_updates at h
  rcases hd : p.date with _ | d0 <;> rcases ha : p.amount with _ | a0 <;>
      rw [hd, ha] at h <;>
      simp only [bind, Except.bind, pure, Except.pure] at h
  · injection h with h
    subst h
    exact ⟨rfl, Or.inl rfl⟩
  · by_cases hpos : a0 ≤ 0
    · simp [hpos] at h
    · simp only [hpos, if_false] at h
      injection h with h
      subst h
      exact ⟨rfl, Or.inr ⟨a0, rfl, by omega, rfl⟩⟩
  · by_cases hblank : d0.pyStrip = ""
    · simp [hblank] at h
    · simp only [hblank, if_false] at h
      injection h with h
      subst h
      exact ⟨rfl, Or.inl rfl⟩
  · by_cases hblank : d0.pyStrip = ""
    · simp [hblank] at h
    · simp only [hblank, if_false] at h
      by_cases hpos : a0 ≤ 0
      · simp [hpos] at h
      · simp only [hpos, if_false] at h
        injection h with h
        subst h
        exact ⟨rfl, Or.inr ⟨a0, rfl, by omega, rfl⟩⟩

theorem applyUpdates_fingerprint_of_none (w : Row) (u : UpdatesDict)
    (h : u.import_fingerprint = none) :
    (applyUpdates w u).import_fingerprint = w.import_fingerprint := by
  unfold applyUpdates
  rw [h]

theorem applyUpdates_direction (w : Row) (u : UpdatesDict) :
    (applyUpdates w u).direction = w.direction := rfl

/-! ## C3 — ambiguous-match safety of the fallback cascade -/

/-- C3: for a candidate row whose fingerprint is absent from the store, a
cascade level that yields zero or two-or-more candidates never produces a
match — the engine proceeds to the next, looser level — and when none of the
three levels yields exactly one candidate the row is inserted as a new row
(appended to the table, every existing row left untouched) rather than
merged into any existing candidate. -/
theorem fallback_cascade_ambiguity_safe (st : ImportState) (r : NormRow)
    (hfp : transaction_fingerprint r.content ∉ st.seen) :
    ((mapGet st.fbWith (transaction_fallback_key_with_method r.content)).length ≠ 1 →
      matchCascade st r = cascadeLevel2 st r) ∧
    ((mapGet st.fb (transaction_fallback_key r.content)).length ≠ 1 →
      cascadeLevel2 st r = cascadeLevel3 st r) ∧
    ((mapGet st.fbWo (transaction_fallback_key_without_amount r.content)).length ≠ 1 →
      cascadeLevel3 st r = none) ∧
    ((mapGet st.fbWith (transaction_fallback_key_with_method r.content)).length ≠ 1 →
     (mapGet st.fb (transaction_fallback_key r.content)).length ≠ 1 →
     (mapGet st.fbWo (transaction_fallback_key_without_amount r.content)).length ≠ 1 →
      (processRow st r).rows = st.rows ++
        [insertedRow r (transaction_fingerprint r.content)
          (if r.raw_category.pyStrip ∈ AUTO_EXCLUDED_CATEGORIES then 1 else 0)]) := by
  have level1 : (mapGet st.fbWith (transaction_fallback_key_with_method r.content)).length ≠ 1 →
      matchCascade st r = cascadeLevel2 st r := by
    intro h1
    unfold matchCascade
    cases hm : mapGet st.fbWith (transaction_fallback_key_with_method r.content) with
    | nil => rfl
    | cons x t =>
      cases t with
      | nil => rw [hm] at h1; simp at h1
      | cons y t2 => rfl
  have level2 : (mapGet st.fb (transaction_fallback_key r.content)).length ≠ 1 →
      cascadeLevel2 st r = cascadeLevel3 st r := by
    intro h2
    unfold cascadeLevel2
    cases hm : mapGet st.fb (transaction_fallback_key r.content) with
    | nil => rfl
    | cons x t =>
      cases t with
      | nil => rw [hm] at h2; simp at h2
      | cons y t2 => rfl
  have level3 : (mapGet st.fbWo (transaction_fallback_key_without_amount r.content)).length ≠ 1 →
      cascadeLevel3 st r = none := by
    intro h3
    unfold cascadeLevel3
    cases hm : mapGet st.fbWo (transaction_fallback_key_without_amount r.content) with
    | nil => rfl
    | cons x t =>
      cases t with
      | nil => rw [hm] at h3; simp at h3
      | cons y t2 => rfl
  refine ⟨level1, level2, level3, fun h1 h2 h3 => ?_⟩
  have hnone : matchCascade st r = none := by
    rw [level1 h1, level2 h2, level3 h3]
  unfold processRow
  simp [hfp, hnone]

/-- Witness for `fallback_cascade_ambiguity_safe`: two stored rows share all
three fallback keys of the incoming candidate, whose fingerprint is absent,
and the candidate is inserted as a third row. -/
theorem fallback_cascade_ambiguity_safe_witness :
    transaction_fingerprint teaNorm.content ∉
      (initImportState [ambTeaRow1, ambTeaRow2]).seen ∧
    (processRow (initImportState [ambTeaRow1, ambTeaRow2]) teaNorm).rows =
      (initImportState [ambTeaRow1, ambTeaRow2]).rows ++
        [insertedRow teaNorm (transaction_fingerprint teaNorm.content)
          (if teaNorm.raw_category.pyStrip ∈ AUTO_EXCLUDED_CATEGORIES then 1 else 0)] := by
  refine ⟨by decide, ?_⟩
  exact (fallback_cascade_ambiguity_safe _ teaNorm (by decide)).2.2.2
    (by decide) (by decide) (by decide)

/-! ## C10 — excluded rows in the monthly summary -/

/-- C10: in the monthly summary, a row marked excluded (with a parseable
amount, inside the queried month) is still counted in `transaction_count`,
while its amount is omitted from both the income and the expense totals. -/
theorem summary_excluded_counted_not_totaled (store : List Row)
    (year month : Nat) (r : Row) (a : Nat)
    (hmonth : strStartsWith r.date (monthPfx year month) = true)
    (hamount : parseAbsInt r.amount = some a)
    (hexcluded : r.is_excluded ≠ 0) :
    (summary (store ++ [r]) year month).transaction_count
      = (summary store year month).transaction_count + 1 ∧
    (summary (store ++ [r]) year month).income = (summary store year month).income ∧
    (summary (store ++ [r]) year month).expense = (summary store year month).expense := by
  have hf : List.filter (fun w => strStartsWith w.date (monthPfx year month)) [r] = [r] := by
    simp [List.filter, hmonth]
  have happ : summary (store ++ [r]) year month = summaryStep (summary store year month) r := by
    simp only [summary, List.filter_append, hf, List.foldl_append, List.foldl_cons,
      List.foldl_nil]
  rw [happ]
  unfold summaryStep
  rw [hamount]
  by_cases hdir : (r.direction.pyStrip.pyLower = "income" ∨ r.direction.pyStrip.pyLower = "expense")
  · simp [hexcluded, hdir]
  · push_neg at hdir
    simp [hexcluded, hdir.1, hdir.2]

/-- Witness for `summary_excluded_counted_not_totaled` at an excluded copy of
the coffee row. -/
theorem summary_excluded_counted_not_totaled_witness :
    strStartsWith ({ coffeeRow with is_excluded := 1 } : Row).date (monthPfx 2024 1) = true ∧
    parseAbsInt ({ coffeeRow with is_excluded := 1 } : Row).amount = some 5000 ∧
    (summary [coffeeRow, { coffeeRow with is_excluded := 1 }] 2024 1).transaction_count
      = (summary [coffeeRow] 2024 1).transaction_count + 1 ∧
    (summary [coffeeRow, { coffeeRow with is_excluded := 1 }] 2024 1).income
      = (summary [coffeeRow] 2024 1).income ∧
    (summary [coffeeRow, { coffeeRow with is_excluded := 1 }] 2024 1).expense
      = (summary [coffeeRow] 2024 1).expense := by
  have h := summary_excluded_counted_not_totaled [coffeeRow] 2024 1
    { coffeeRow with is_excluded := 1 } 5000 (by decide) (by decide) (by decide)
  exact ⟨by decide, by decide, h.1, h.2.1, h.2.2⟩

/-! ## C4 — the by-snapshot update path and fingerprints -/

/-- C4 counterexample: a by-snapshot (`update-by-match`) amount edit on the
unique matching expense row changes the stored amount but leaves the stored
fingerprint exactly as it was, so the stored fingerprint does not equal the
fingerprint of the post-update content — contradicting the claim that this
path recomputes and persists the fingerprint. -/
theorem update_by_match_stale_fingerprint_cex :
    update_transaction_by_match "expense" [coffeeRow]
      { date := "2024-01-05", category := "misc", description := "coffee",
        amount := 5000, method := "card" }
      { amount := some 3000 }
      = .ok [{ coffeeRow with amount := "-3000" }] ∧
    ({ coffeeRow with amount := "-3000" } : Row).import_fingerprint
      = some (transaction_fingerprint coffeeNorm.content) ∧
    transaction_fingerprint ({ coffeeRow with amount := "-3000" } : Row).content
      ≠ transaction_fingerprint coffeeNorm.content := by
  refine ⟨by decide, by decide, by decide⟩

/-- Elimination for a successful by-snapshot update: it applied exactly the
built updates dict to the unique matched id. -/
theorem update_by_match_ok_elim (direction : String)
    (store store' : List Row) (original : TransactionMatchRequest)
    (updated : TransactionUpdateRequest)
    (hok : update_transaction_by_match direction store original updated = .ok store') :
    ∃ u onlyId, build_transaction_updates updated direction = .ok u ∧
      store' = (apply_transaction_update store onlyId u direction).1 := by
  unfold update_transaction_by_match at hok
  cases hu : build_transaction_updates updated direction with
  | error e => rw [hu] at hok; simp [bind, Except.bind] at hok
  | ok u =>
    rw [hu] at hok
    simp only [bind, Except.bind] at hok
    by_cases hemp : u.isEmpty
    · simp [hemp] at hok
    · simp only [hemp, Bool.false_eq_true, if_false] at hok
      by_cases hneg : original.amount ≤ 0
      · simp [hneg, pure, Except.pure] at hok
      · simp only [hneg, if_false] at hok
        cases hmatch : (((store.filter fun w =>
            w.direction = direction ∧ w.date = original.date.pyStrip ∧
            w.raw_category = original.category.pyStrip ∧
            w.description = original.description.pyStrip ∧
            w.method = original.method.pyStrip ∧
            w.is_excluded = (if original.excluded then 1 else 0)).filter fun w =>
            match parseAbsInt w.amount with
            | some a => (a : Int) = original.amount
            | none => False).map Row.id) with
        | nil => rw [hmatch] at hok; simp [pure, Except.pure] at hok
        | cons onlyId t =>
          cases t with
          | cons y t2 => rw [hmatch] at hok; simp [pure, Except.pure] at hok
          | nil =>
            rw [hmatch] at hok
            simp only [] at hok
            by_cases hrc : (apply_transaction_update store onlyId u direction).2 = 0
            · simp [hrc, pure, Except.pure] at hok
            · simp only [hrc, if_false, pure, Except.pure] at hok
              injection hok with hok
              subst hok
              exact ⟨u, onlyId, rfl, rfl⟩

/-- C4 (amended): when the by-snapshot update finds exactly one matching row
it applies the built field updates to that row, but it never recomputes the
fingerprint: the sequence of stored fingerprints is exactly what it was
before the operation. -/
theorem update_by_match_preserves_fingerprints (direction : String)
    (store store' : List Row) (original : TransactionMatchRequest)
    (updated : TransactionUpdateRequest)
    (hok : update_transaction_by_match direction store original updated = .ok store') :
    store'.map Row.import_fingerprint = store.map Row.import_fingerprint ∧
    ∃ u onlyId, build_transaction_updates updated direction = .ok u ∧
      store' = (apply_transaction_update store onlyId u direction).1 := by
  obtain ⟨u, onlyId, hu, hstore⟩ :=
    update_by_match_ok_elim direction store store' original updated hok
  have hfpnone : u.import_fingerprint = none :=
    (build_transaction_updates_shape updated direction u hu).1
  refine ⟨?_, u, onlyId, hu, hstore⟩
  rw [hstore]
  unfold apply_transaction_update
  simp only [List.map_map]
  refine List.map_congr_left fun w _ => ?_
  by_cases hw : w.id = onlyId ∧ w.direction = direction
  · simp [hw, applyUpdates_fingerprint_of_none w u hfpnone]
  · simp [hw]

/-- Witness for `update_by_match_preserves_fingerprints` at the concrete
amount edit of the counterexample. -/
theorem update_by_match_preserves_fingerprints_witness :
    update_transaction_by_match "expense" [coffeeRow]
      { date := "2024-01-05", category := "misc", description := "coffee",
        amount := 5000, method := "card" }
      { amount := some 3000 } = .ok [{ coffeeRow with amount := "-3000" }] ∧
    ([{ coffeeRow with amount := "-3000" }] : List Row).map Row.import_fingerprint
      = [coffeeRow].map Row.import_fingerprint := by
  refine ⟨by decide, ?_⟩
  exact (update_by_match_preserves_fingerprints "expense" [coffeeRow] _
    { date := "2024-01-05", category := "misc", description := "coffee",
      amount := 5000, method := "card" }
    { amount := some 3000 } (by decide)).1

/-! ## C9 — native-schema direction resolution -/

/-- C9 counterexample: the backend's `TYPE_TO_DIRECTION` has no entry for
`이체` (transfer): a transfer-typed native row with a positive amount
resolves by amount sign to `income`, not to `transfer` as the
three-way-table claim asserts. -/
theorem native_direction_two_way_cex :
    TYPE_TO_DIRECTION "이체" = none ∧
    (normalize_tsv_row transferTypedTsvInput "t1").map NormRow.direction = some "income" :=
  ⟨rfl, by decide⟩

/-- C9 (amended): the backend native normalizer maps the transaction type
through the *two*-entry table `수입 → income, 지출 → expense` and any other
type (`이체` included) falls back to the amount's sign (income when the
parsed amount is ≥ 0, else expense); the ledger variant maps through the
three-way `TYPE_MAP`, but its default for an unrecognized type is
`transfer`, not the amount's sign. -/
theorem native_direction_resolution :
    (∀ (row : TsvInput) (fid : String) (r : NormRow),
      normalize_tsv_row row fid = some r →
      ∃ amt, parseSignedInt ((row.amountStr.getD "").removeCommas) = some amt ∧
        r.direction =
          (if (row.txType.getD "").pyStrip = "수입" then "income"
           else if (row.txType.getD "").pyStrip = "지출" then "expense"
           else if 0 ≤ amt then "income" else "expense")) ∧
    (∀ (row : LedgerTsvInput) (r : MvpNormalized),
      mvp_normalize_row row = .ok (some r) →
      r.type = (TYPE_MAP ((row.txType.getD "").pyStrip)).getD "transfer") := by
  constructor
  · intro row fid r h
    unfold normalize_tsv_row at h
    by_cases hd : (row.date.getD "").pyStrip = ""
    · simp [hd] at h
    · simp only [hd, if_false] at h
      cases hp : parseSignedInt ((row.amountStr.getD "").removeCommas) with
      | none => rw [hp] at h; simp at h
      | some amt =>
        rw [hp] at h
        simp only [] at h
        by_cases hdesc : (row.description.getD "").pyStrip = ""
        · simp [hdesc] at h
        · simp only [hdesc, if_false, Option.some.injEq] at h
          refine ⟨amt, rfl, ?_⟩
          rw [← h]
          by_cases hsu : (row.txType.getD "").pyStrip = "수입"
          · simp [TYPE_TO_DIRECTION, hsu]
          · by_cases hji : (row.txType.getD "").pyStrip = "지출"
            · simp [TYPE_TO_DIRECTION, hsu, hji]
            · simp [TYPE_TO_DIRECTION, hsu, hji]
  · intro row r h
    unfold mvp_normalize_row at h
    by_cases hd : (row.date.getD "").pyStrip = ""
    · simp [hd, pure, Except.pure] at h
    · simp only [hd, if_false, bind, Except.bind] at h
      cases hsp : strptimeDateTime false
          ((row.date.getD "").pyStrip ++ " " ++
            (if row.time.getD "" = "" then "00:00" else row.time.getD "").pyStrip) with
      | none => rw [hsp] at h; simp [pure, Except.pure] at h
      | some dt =>
        rw [hsp] at h
        simp only [pure, Except.pure] at h
        cases hpi : parseIntStrict
            (if ((row.amountStr.getD "0").removeCommas).pyStrip = "" then "0"
             else ((row.amountStr.getD "0").removeCommas).pyStrip) with
        | none => rw [hpi] at h; simp [pure, Except.pure] at h
        | some amt =>
          rw [hpi] at h
          simp only [pure, Except.pure, Except.ok.injEq, Option.some.injEq] at h
          rw [← h]

/-- Witness for `native_direction_resolution`: the `이체`-typed native row
resolves by sign, and a `지출`-typed ledger row maps through `TYPE_MAP`. -/
theorem native_direction_resolution_witness :
    (∃ amt, parseSignedInt ((transferTypedTsvInput.amountStr.getD "").removeCommas)
        = some amt ∧
      (normalize_tsv_row transferTypedTsvInput "t1").map NormRow.direction =
        some (if (transferTypedTsvInput.txType.getD "").pyStrip = "수입" then "income"
          else if (transferTypedTsvInput.txType.getD "").pyStrip = "지출" then "expense"
          else if 0 ≤ amt then "income" else "expense")) ∧
    blankDescriptionLedgerNormalized.type =
      (TYPE_MAP ((blankDescriptionLedgerInput.txType.getD "").pyStrip)).getD "transfer" := by
  constructor
  · have hnorm : normalize_tsv_row transferTypedTsvInput "t1"
        = some ((normalize_tsv_row transferTypedTsvInput "t1").getD zeroExpenseNorm) := by
      decide
    obtain ⟨amt, hamt, hdir⟩ := (native_direction_resolution).1 transferTypedTsvInput "t1"
      ((normalize_tsv_row transferTypedTsvInput "t1").getD zeroExpenseNorm) hnorm
    refine ⟨amt, hamt, ?_⟩
    rw [hnorm]
    simp only [Option.map_some']
    rw [hdir]
  · exact (native_direction_resolution).2 blankDescriptionLedgerInput
      blankDescriptionLedgerNormalized (by decide)

/-! ## C8 — normalizer rejection contract -/

/-- C8 counterexample: the ledger variant's normalizer does not reject a
row whose description (`내용`) is blank — it returns a normalized row (with
null content) rather than silently excluding it from the batch. -/
theorem mvp_blank_description_not_rejected_cex :
    mvp_normalize_row blankDescriptionLedgerInput
      = .ok (some blankDescriptionLedgerNormalized) ∧
    (Except.ok (some blankDescriptionLedgerNormalized)
        : Except MvpNormalizeError (Option MvpNormalized))
      ≠ .ok none :=
  ⟨by decide, by decide⟩

/-- C8 (amended): both backend normalizers silently reject a row (return
`none`, no error) whenever its date is blank, its amount is unparseable, or
its description is blank; the ledger variant's normalizer silently rejects
only the blank date — an unparseable amount raises an error (failing the
batch), and a blank description is accepted. -/
theorem normalizer_rejection_contract :
    (∀ (row : CleanedInput) (fid : String),
      (row.date.getD "").pyStrip = "" → normalize_cleaned_row row fid = none) ∧
    (∀ (row : CleanedInput) (fid : String),
      parseAmountField row.amount = none → normalize_cleaned_row row fid = none) ∧
    (∀ (row : CleanedInput) (fid : String),
      (row.description.getD "").pyStrip = "" → normalize_cleaned_row row fid = none) ∧
    (∀ (row : TsvInput) (fid : String),
      (row.date.getD "").pyStrip = "" → normalize_tsv_row row fid = none) ∧
    (∀ (row : TsvInput) (fid : String),
      parseSignedInt ((row.amountStr.getD "").removeCommas) = none →
      normalize_tsv_row row fid = none) ∧
    (∀ (row : TsvInput) (fid : String),
      (row.description.getD "").pyStrip = "" → normalize_tsv_row row fid = none) ∧
    (∀ row : LedgerTsvInput,
      (row.date.getD "").pyStrip = "" → mvp_normalize_row row = .ok none) ∧
    (∀ (row : LedgerTsvInput) (dt : DateTimeV),
      (row.date.getD "").pyStrip ≠ "" →
      strptimeDateTime false
        ((row.date.getD "").pyStrip ++ " " ++
          (if row.time.getD "" = "" then "00:00" else row.time.getD "").pyStrip) = some dt →
      parseIntStrict
        (if ((row.amountStr.getD "0").removeCommas).pyStrip = "" then "0"
         else ((row.amountStr.getD "0").removeCommas).pyStrip) = none →
      mvp_normalize_row row = .error .intError) ∧
    (∀ (row : LedgerTsvInput) (dt : DateTimeV) (amt : Int),
      (row.date.getD "").pyStrip ≠ "" →
      strptimeDateTime false
        ((row.date.getD "").pyStrip ++ " " ++
          (if row.time.getD "" = "" then "00:00" else row.time.getD "").pyStrip) = some dt →
      parseIntStrict
        (if ((row.amountStr.getD "0").removeCommas).pyStrip = "" then "0"
         else ((row.amountStr.getD "0").removeCommas).pyStrip) = some amt →
      ∃ res, mvp_normalize_row row = .ok (some res)) := by
  refine ⟨?_, ?_, ?_, ?_, ?_, ?_, ?_, ?_, ?_⟩
  · intro row fid h
    unfold normalize_cleaned_row
    simp [h]
  · intro row fid h
    unfold normalize_cleaned_row
    by_cases hd : (row.date.getD "").pyStrip = ""
    · simp [hd]
    · simp [hd, h]
  · intro row fid h
    unfold normalize_cleaned_row
    by_cases hd : (row.date.getD "").pyStrip = ""
    · simp [hd]
    · cases hp : parseAmountField row.amount with
      | none => simp [hd, hp]
      | some amt => simp [hd, hp, h]
  · intro row fid h
    unfold normalize_tsv_row
    simp [h]
  · intro row fid h
    unfold normalize_tsv_row
    by_cases hd : (row.date.getD "").pyStrip = ""
    · simp [hd]
    · simp [hd, h]
  · intro row fid h
    unfold normalize_tsv_row
    by_cases hd : (row.date.getD "").pyStrip = ""
    · simp [hd]
    · cases hp : parseSignedInt ((row.amountStr.getD "").removeCommas) with
      | none => simp [hd, hp]
      | some amt => simp [hd, hp, h]
  · intro row h
    unfold mvp_normalize_row
    simp [h, pure, Except.pure]
  · intro row dt hne hsp hpi
    unfold mvp_normalize_row
    simp only [hne, if_false, bind, Except.bind, hsp, pure, Except.pure, hpi]
  · intro row dt amt hne hsp hpi
    unfold mvp_normalize_row
    simp only [hne, if_false, bind, Except.bind, hsp, pure, Except.pure, hpi]
    exact ⟨_, rfl⟩

/-- Witness for `normalizer_rejection_contract` on concrete rows: a blank
date is rejected by all three normalizers, the amount `"abc"` is rejected by
the backend but raises in the ledger variant, and the blank-description
ledger row is accepted. -/
theorem normalizer_rejection_contract_witness :
    normalize_cleaned_row { zeroExpenseInput with date := some " " } "z1" = none ∧
    normalize_cleaned_row { zeroExpenseInput with amount := some "abc" } "z1" = none ∧
    normalize_cleaned_row { zeroExpenseInput with description := some "" } "z1" = none ∧
    normalize_tsv_row { transferTypedTsvInput with date := none } "t1" = none ∧
    normalize_tsv_row { transferTypedTsvInput with amountStr := some "abc" } "t1" = none ∧
    normalize_tsv_row { transferTypedTsvInput with description := some " " } "t1" = none ∧
    mvp_normalize_row { blankDescriptionLedgerInput with date := some "" } = .ok none ∧
    mvp_normalize_row { blankDescriptionLedgerInput with amountStr := some "abc" }
      = .error .intError ∧
    ∃ res, mvp_normalize_row blankDescriptionLedgerInput = .ok (some res) := by
  obtain ⟨h1, h2, h3, h4, h5, h6, h7, h8, h9⟩ := normalizer_rejection_contract
  refine ⟨h1 _ "z1" (by decide), h2 _ "z1" (by decide), h3 _ "z1" (by decide),
    h4 _ "t1" (by decide), h5 _ "t1" (by decide), h6 _ "t1" (by decide),
    h7 _ (by decide), h8 _ ledgerSampleDT (by decide) (by decide) (by decide),
    h9 _ ledgerSampleDT (-100) (by decide) (by decide) (by decide)⟩

/-! ## C7 — internal-transfer pairing -/

/-- C7 counterexample: the pairing pass searches only ungrouped
*transfer-typed* rows (`WHERE type = 'transfer'`), not "ungrouped rows of
any direction/type": an income row with identical currency, exactly opposite
signed amount and an identical timestamp is never considered, so the
internal-transfer row stays ungrouped although the claim says it is paired. -/
theorem transfer_pairing_any_type_cex :
    is_internal_transfer safeboxTransfer.content = true ∧
    oppositeIncomeRow.currency = safeboxTransfer.currency ∧
    oppositeIncomeRow.signed_amount = -safeboxTransfer.signed_amount ∧
    oppositeIncomeRow.occurred_at = safeboxTransfer.occurred_at ∧
    oppositeIncomeRow.transfer_group_id = none ∧
    mvp_pair_internal_transfers [safeboxTransfer, oppositeIncomeRow]
      = some [safeboxTransfer, oppositeIncomeRow] ∧
    safeboxTransfer.transfer_group_id = none :=
  ⟨by decide, by decide, by decide, by decide, by decide, by decide, by decide⟩

/-- C7 (amended): among the ungrouped *transfer-typed* rows (ascending time),
an internal-keyword row is paired with the first other such row having
identical currency, exactly opposite signed amount and a timestamp within
the absolute 5-minute window — both receive the same freshly generated
non-null group id and a cleared review flag; and a transfer row alone in the
candidate set is left completely unchanged (still ungrouped; note its
review-required flag was never set by normalization, transfers are flagged
for review only through the unmatched-transfers listing). -/
theorem transfer_pairing_scenario (a b : MvpRow) (da db : DateTimeV)
    (hta : a.type = "transfer") (htb : b.type = "transfer")
    (hga : a.transfer_group_id = none) (hgb : b.transfer_group_id = none)
    (hia : is_internal_transfer a.content = true)
    (hcur : b.currency = a.currency)
    (hamt : b.signed_amount = -a.signed_amount)
    (hda : strptimeDateTime true a.occurred_at = some da)
    (hdb : strptimeDateTime true b.occurred_at = some db)
    (hwin : (toAbsSeconds db - toAbsSeconds da).natAbs ≤ 300)
    (hord : strLeB a.occurred_at b.occurred_at = true)
    (hid : a.id ≠ b.id) :
    mvp_pair_internal_transfers [a, b] = some
      [{ a with transfer_group_id := some (mvpGroupId a.id b.id), review_required := 0 },
       { b with transfer_group_id := some (mvpGroupId a.id b.id), review_required := 0 }] ∧
    (∀ (c : MvpRow) (dc : DateTimeV), c.type = "transfer" →
      c.transfer_group_id = none →
      strptimeDateTime true c.occurred_at = some dc →
      mvp_pair_internal_transfers [c] = some [c]) := by
  constructor
  · have hbneq : ¬(b.id = a.id) := fun h => hid h.symm
    have hnotwin : ¬(300 < (toAbsSeconds db - toAbsSeconds da).natAbs) := by omega
    have hcands : (List.filter (fun w => w.type = "transfer" ∧ w.transfer_group_id = none)
        [a, b]).insertionSort (fun x y => strLeB x.occurred_at y.occurred_at = true)
        = [a, b] := by
      have hfil : List.filter (fun w => w.type = "transfer" ∧ w.transfer_group_id = none)
          [a, b] = [a, b] := by
        simp [List.filter, hta, htb, hga, hgb]
      rw [hfil]
      simp [List.insertionSort, List.orderedInsert, hord]
    have hfind : pairFindRight [] a (toAbsSeconds da) [a, b] = some (some b) := by
      simp [pairFindRight, hbneq, hcur, hamt, hdb, hnotwin]
    unfold mvp_pair_internal_transfers
    rw [hcands]
    simp [pairOuter, hia, hda, hfind, hbneq]
  · intro c dc htc hgc hspc
    have hcands : (List.filter (fun w => w.type = "transfer" ∧ w.transfer_group_id = none)
        [c]).insertionSort (fun x y => strLeB x.occurred_at y.occurred_at = true)
        = [c] := by
      have hfil : List.filter (fun w => w.type = "transfer" ∧ w.transfer_group_id = none)
          [c] = [c] := by
        simp [List.filter, htc, hgc]
      rw [hfil]
      simp [List.insertionSort, List.orderedInsert]
    unfold mvp_pair_internal_transfers
    rw [hcands]
    by_cases hint : is_internal_transfer c.content = true
    · simp [pairOuter, pairFindRight, hint, hspc]
    · simp [pairOuter, hint]

/-- Witness for `transfer_pairing_scenario` at the sample internal-transfer
pair (the `세이프박스` leg and its opposite leg three minutes later). -/
theorem transfer_pairing_scenario_witness :
    mvp_pair_internal_transfers [safeboxTransfer, oppositeTransferRow] = some
      [{ safeboxTransfer with
          transfer_group_id := some (mvpGroupId safeboxTransfer.id oppositeTransferRow.id)
          review_required := 0 },
       { oppositeTransferRow with
          transfer_group_id := some (mvpGroupId safeboxTransfer.id oppositeTransferRow.id)
          review_required := 0 }] ∧
    mvp_pair_internal_transfers [safeboxTransfer] = some [safeboxTransfer] := by
  have h := transfer_pairing_scenario safeboxTransfer oppositeTransferRow
    { year := 2026, month := 2, day := 13, hour := 10, minute := 24, second := 0 }
    { year := 2026, month := 2, day := 13, hour := 10, minute := 27, second := 0 }
    (by decide) (by decide) (by decide) (by decide) (by decide) (by decide) (by decide)
    (by decide) (by decide) (by decide) (by decide) (by decide)
  exact ⟨h.1, h.2 safeboxTransfer
    { year := 2026, month := 2, day := 13, hour := 10, minute := 24, second := 0 }
    (by decide) (by decide) (by decide)⟩

/-! ## C5 — import-batch transactionality -/

/-- C5 counterexample: with a replacement directive the month-replacement
deletion commits in its own earlier transaction: the committed-state
sequence of the batch contains an intermediate state (the post-delete,
pre-insert store) that differs both from the prior store and from the final
store, so a failure after the first commit leaves neither "all" nor "none"
of the batch's mutations. -/
theorem import_commit_not_atomic_cex :
    import_transactions [coffeeRow] [teaNorm] true none none
      = .ok { commits := [[], (importRows [] [teaNorm]).rows], deleted := 1,
              imported := 1, skipped_duplicates := 0 } ∧
    ([] : List Row) ≠ [coffeeRow] ∧
    ([] : List Row) ≠ (importRows [] [teaNorm]).rows :=
  ⟨by decide, by decide, by decide⟩

/-- Elimination for a successful import batch: the committed states are the
single final store, or (with replacement) the month-filtered store followed
by the final store built from it. -/
theorem import_transactions_ok_elim (store : List Row) (normalized : List NormRow)
    (replace_month : Bool) (year month : Option Int) (out : ImportOutcome)
    (hok : import_transactions store normalized replace_month year month = .ok out) :
    (replace_month = false ∧ out.commits = [(importRows store normalized).rows]) ∨
    (replace_month = true ∧ ∃ pfx, out.commits =
      [store.filter fun w => !(strStartsWith w.date pfx),
       (importRows (store.filter fun w => !(strStartsWith w.date pfx)) normalized).rows]) := by
  unfold import_transactions at hok
  by_cases hemp : normalized.isEmpty
  · simp [hemp, bind, Except.bind, pure, Except.pure, throw, throwThe,
      MonadExceptOf.throw] at hok
  · simp only [hemp, Bool.false_eq_true, if_false, bind, Except.bind, pure,
      Except.pure, throw, throwThe, MonadExceptOf.throw] at hok
    cases replace_month with
    | false =>
      simp only [if_neg (by simp : ¬(false = true))] at hok
      injection hok with hok
      subst hok
      exact Or.inl ⟨rfl, rfl⟩
    | true =>
      refine Or.inr ⟨rfl, ?_⟩
      simp only [if_pos rfl] at hok
      cases hres : resolveTargetMonth normalized year month with
      | error e => rw [hres] at hok; simp at hok
      | ok ym =>
        obtain ⟨ty, tm⟩ := ym
        rw [hres] at hok
        simp only [] at hok
        by_cases hrange : ty < 2000 ∨ 2100 < ty ∨ tm < 1 ∨ 12 < tm
        · simp [hrange] at hok
        · simp only [hrange, if_false] at hok
          injection hok with hok
          subst hok
          exact ⟨_, rfl⟩

/-- C5 (amended): the per-row insert/fingerprint-rewrite phase of an import
batch is one atomic unit.  Without a replacement directive the batch has
exactly one commit, so every state observable after a partial failure is the
prior store or the completed batch; with `replace_month` the deletion is its
own earlier atomic unit — the committed sequence is the post-delete store
followed by the final store. -/
theorem import_batch_commit_structure (store : List Row) (normalized : List NormRow)
    (replace_month : Bool) (year month : Option Int) (out : ImportOutcome)
    (hok : import_transactions store normalized replace_month year month = .ok out) :
    (replace_month = false →
      out.commits = [(importRows store normalized).rows] ∧
      ∀ s ∈ store :: out.commits, s = store ∨ s = (importRows store normalized).rows) ∧
    (replace_month = true →
      ∃ kept, out.commits = [kept, (importRows kept normalized).rows]) := by
  rcases import_transactions_ok_elim store normalized replace_month year month out hok with
    ⟨hrm, hc⟩ | ⟨hrm, pfx, hc⟩
  · subst hrm
    refine ⟨fun _ => ⟨hc, ?_⟩, fun h => absurd h (by decide)⟩
    intro s hs
    rw [hc] at hs
    rcases List.mem_cons.mp hs with rfl | hs
    · exact Or.inl rfl
    · rcases List.mem_cons.mp hs with rfl | hs
      · exact Or.inr rfl
      · simp at hs
  · subst hrm
    exact ⟨fun h => absurd h (by decide), fun _ => ⟨_, hc⟩⟩

/-- Witness for `import_batch_commit_structure` on both modes: the plain
mode on the counterexample store, and its replace-month variant. -/
theorem import_batch_commit_structure_witness :
    ((import_transactions [coffeeRow] [teaNorm] false none none).map
      ImportOutcome.commits = .ok [(importRows [coffeeRow] [teaNorm]).rows]) ∧
    ((import_transactions [coffeeRow] [teaNorm] true none none).map
      ImportOutcome.commits = .ok [[], (importRows [] [teaNorm]).rows]) := by
  have h1 := import_batch_commit_structure [coffeeRow] [teaNorm] false none none
    ((import_transactions [coffeeRow] [teaNorm] false none none).toOption.getD
      { commits := [], deleted := 0, imported := 0, skipped_duplicates := 0 })
    (by decide)
  have h2 := import_batch_commit_structure [coffeeRow] [teaNorm] true none none
    ((import_transactions [coffeeRow] [teaNorm] true none none).toOption.getD
      { commits := [], deleted := 0, imported := 0, skipped_duplicates := 0 })
    (by decide)
  constructor
  · rw [show import_transactions [coffeeRow] [teaNorm] false none none
        = .ok ((import_transactions [coffeeRow] [teaNorm] false none none).toOption.getD
          { commits := [], deleted := 0, imported := 0, skipped_duplicates := 0 })
      from by decide]
    simp only [Except.map]
    rw [(h1.1 rfl).1]
  · rw [show import_transactions [coffeeRow] [teaNorm] true none none
        = .ok ((import_transactions [coffeeRow] [teaNorm] true none none).toOption.getD
          { commits := [], deleted := 0, imported := 0, skipped_duplicates := 0 })
      from by decide]
    simp only [Except.map]
    obtain ⟨kept, hkept⟩ := h2.2 rfl
    rw [hkept]
    have : kept = [] := by
      have := hkept
      rw [show ((import_transactions [coffeeRow] [teaNorm] true none none).toOption.getD
          { commits := [], deleted := 0, imported := 0,
            skipped_duplicates := 0 }).commits = [[], (importRows [] [teaNorm]).rows]
        from by decide] at this
      exact (List.cons.injEq _ _ _ _).mp this |>.1.symm
    rw [this]

/-! ## C6 — amount/direction consistency -/

/-- C6 counterexample: a cleaned-schema row with explicit direction
`expense` and amount `0` normalizes and imports as a stored row with amount
`0` and direction `expense` — its amount is ≥ 0 while its direction is not
`income`, refuting the claimed equivalence `amount ≥ 0 ⇔ direction =
income`. -/
theorem amount_direction_iff_cex :
    normalize_cleaned_row zeroExpenseInput "z1" = some zeroExpenseNorm ∧
    (importRows [] [zeroExpenseNorm]).rows.map (fun w => (w.amount, w.direction))
      = [("0", "expense")] ∧
    parseSignedInt "0" = some 0 ∧ (0 : Int) ≥ 0 ∧ ("expense" : String) ≠ "income" :=
  ⟨by decide, by decide, by decide, by decide, by decide⟩

theorem signConsistentB_of (w : Row) (v : Int)
    (hamt : w.amount = intToDecimalString v)
    (hinc : w.direction = "income" → 0 ≤ v)
    (hexp : w.direction = "expense" → v ≤ 0) :
    signConsistentB w = true := by
  unfold signConsistentB
  rw [hamt, parseSignedInt_intToDecimalString]
  by_cases hi : w.direction = "income" <;> by_cases he : w.direction = "expense"
  · rw [hi] at he
    exact absurd he (by decide)
  · simp [hi, hinc hi]
  · simp [hi, he, hexp he]
  · simp [hi, he]

theorem signConsistentB_set_fingerprint (w : Row) (f : Option Fingerprint) :
    signConsistentB { w with import_fingerprint := f } = signConsistentB w := rfl

theorem normalize_cleaned_row_sign (row : CleanedInput) (fid : String) (r : NormRow)
    (h : normalize_cleaned_row row fid = some r) : NormRowSign r := by
  unfold normalize_cleaned_row at h
  by_cases hd : (row.date.getD "").pyStrip = ""
  · simp [hd] at h
  · simp only [hd, if_false] at h
    cases hp : parseAmountField row.amount with
    | none => rw [hp] at h; simp at h
    | some amount =>
      rw [hp] at h
      simp only [] at h
      by_cases hdesc : (row.description.getD "").pyStrip = ""
      · simp [hdesc] at h
      · simp only [hdesc, if_false, Option.some.injEq] at h
        rw [← h]
        refine ⟨_, rfl, ?_, ?_⟩
        · intro hdir
          dsimp only at hdir ⊢
          rw [if_pos hdir]
          exact Int.natCast_nonneg _
        · intro hdir
          dsimp only at hdir ⊢
          rw [if_neg (by rw [hdir]; decide)]
          exact neg_nonpos.mpr (Int.natCast_nonneg _)

theorem normalize_tsv_row_sign (row : TsvInput) (fid : String) (r : NormRow)
    (h : normalize_tsv_row row fid = some r) : NormRowSign r := by
  unfold normalize_tsv_row at h
  by_cases hd : (row.date.getD "").pyStrip = ""
  · simp [hd] at h
  · simp only [hd, if_false] at h
    cases hp : parseSignedInt ((row.amountStr.getD "").removeCommas) with
    | none => rw [hp] at h; simp at h
    | some amount =>
      rw [hp] at h
      simp only [] at h
      by_cases hdesc : (row.description.getD "").pyStrip = ""
      · simp [hdesc] at h
      · simp only [hdesc, if_false, Option.some.injEq] at h
        rw [← h]
        refine ⟨_, rfl, ?_, ?_⟩
        · intro hdir
          dsimp only at hdir ⊢
          rw [if_pos hdir]
          exact Int.natCast_nonneg _
        · intro hdir
          dsimp only at hdir ⊢
          rw [if_neg (by rw [hdir]; decide)]
          exact neg_nonpos.mpr (Int.natCast_nonneg _)

theorem normalized_output_sign (r : NormRow) (h : NormalizedOutput r) : NormRowSign r := by
  rcases h with ⟨row, fid, hr⟩ | ⟨row, fid, hr⟩
  · exact normalize_cleaned_row_sign row fid r hr
  · exact normalize_tsv_row_sign row fid r hr

theorem processRow_sign (st : ImportState) (r : NormRow)
    (hst : SignInvariant st.rows) (hr : NormRowSign r) :
    SignInvariant ((processRow st r).rows) := by
  unfold processRow
  by_cases hfp : transaction_fingerprint r.content ∈ st.seen
  · simpa [hfp] using hst
  · simp only [hfp, if_false]
    cases hmc : matchCascade st r with
    | some mid =>
      simp only []
      intro w' hw'
      simp only [List.mem_map] at hw'
      obtain ⟨w, hw, rfl⟩ := hw'
      by_cases hid : w.id = mid
      · rw [if_pos hid, signConsistentB_set_fingerprint]
        exact hst w hw
      · rw [if_neg hid]
        exact hst w hw
    | none =>
      simp only []
      intro w' hw'
      rcases List.mem_append.mp hw' with hw | hw
      · exact hst w' hw
      · rw [List.mem_singleton] at hw
        subst hw
        obtain ⟨v, hv, hi, he⟩ := hr
        exact signConsistentB_of _ v hv hi he

theorem foldl_processRow_sign (rows : List NormRow) (st : ImportState)
    (hst : SignInvariant st.rows) (hrows : ∀ r ∈ rows, NormRowSign r) :
    SignInvariant ((rows.foldl processRow st).rows) := by
  induction rows generalizing st with
  | nil => exact hst
  | cons r rest ih =>
    simp only [List.foldl_cons]
    exact ih (processRow st r)
      (processRow_sign st r hst (hrows r (List.mem_cons_self _ _)))
      (fun r' hr' => hrows r' (List.mem_cons_of_mem _ hr'))

theorem importRows_sign (store : List Row) (rows : List NormRow)
    (hst : SignInvariant store) (hrows : ∀ r ∈ rows, NormRowSign r) :
    SignInvariant ((importRows store rows).rows) :=
  foldl_processRow_sign rows (initImportState store) hst hrows

/-- Elimination for a successful by-id update: it applied the built updates
dict, extended with some recomputed fingerprint, to the addressed id. -/
theorem update_by_id_ok_elim (direction : String) (store store' : List Row)
    (transaction_id : String) (payload : TransactionUpdateRequest)
    (hok : update_transaction_by_id direction store transaction_id payload = .ok store') :
    ∃ u f, build_transaction_updates payload direction = .ok u ∧
      store' = (apply_transaction_update store transaction_id
        { u with import_fingerprint := some f } direction).1 := by
  unfold update_transaction_by_id at hok
  cases hu : build_transaction_updates payload direction with
  | error e => rw [hu] at hok; simp [bind, Except.bind] at hok
  | ok u =>
    rw [hu] at hok
    simp only [bind, Except.bind] at hok
    by_cases hemp : u.isEmpty
    · simp [hemp, throw, throwThe, MonadExceptOf.throw, pure, Except.pure] at hok
    · simp only [hemp, Bool.false_eq_true, if_false] at hok
      cases hfind : store.find? fun w => w.id = transaction_id ∧ w.direction = direction with
      | none => rw [hfind] at hok; simp [throw, throwThe, MonadExceptOf.throw, pure, Except.pure] at hok
      | some row =>
        rw [hfind] at hok
        simp only [] at hok
        by_cases hrc : (apply_transaction_update store transaction_id
            { u with import_fingerprint := some (transaction_fingerprint
              { date := u.date.getD row.date, amount := u.amount.getD row.amount
                description := u.description.getD row.description
                method := u.method.getD row.method, direction := direction
                raw_category := u.raw_category.getD row.raw_category }) } direction).2 = 0
        · simp [hrc, throw, throwThe, MonadExceptOf.throw, pure, Except.pure] at hok
        · simp only [hrc, if_false, pure, Except.pure] at hok
          injection hok with hok
          subst hok
          exact ⟨u, _, rfl, rfl⟩

theorem signConsistentB_applyUpdates (w : Row) (u : UpdatesDict) (d : String)
    (hw : signConsistentB w = true) (hdir : w.direction = d)
    (hsh : u.amount = none ∨ ∃ a : Int, u.amount = some (intToDecimalString
      (if d = "expense" then -(a.natAbs : Int) else (a.natAbs : Int)))) :
    signConsistentB (applyUpdates w u) = true := by
  rcases hsh with hnone | ⟨a, hsome⟩
  · have h1 : (applyUpdates w u).amount = w.amount := by
      simp [applyUpdates, hnone]
    unfold signConsistentB at hw ⊢
    rw [h1, applyUpdates_direction]
    exact hw
  · have h1 : (applyUpdates w u).amount = intToDecimalString
        (if d = "expense" then -(a.natAbs : Int) else (a.natAbs : Int)) := by
      simp [applyUpdates, hsome]
    refine signConsistentB_of _ _ h1 ?_ ?_
    · intro hi
      rw [applyUpdates_direction] at hi
      have hd : d = "income" := hdir.symm.trans hi
      rw [if_neg (by rw [hd]; decide)]
      exact Int.natCast_nonneg _
    · intro he
      rw [applyUpdates_direction] at he
      have hd : d = "expense" := hdir.symm.trans he
      rw [if_pos hd]
      exact neg_nonpos.mpr (Int.natCast_nonneg _)

theorem apply_transaction_update_sign (store : List Row) (tid : String)
    (u : UpdatesDict) (d : String) (hst : SignInvariant store)
    (hsh : u.amount = none ∨ ∃ a : Int, u.amount = some (intToDecimalString
      (if d = "expense" then -(a.natAbs : Int) else (a.natAbs : Int)))) :
    SignInvariant (apply_transaction_update store tid u d).1 := by
  intro w' hw'
  unfold apply_transaction_update at hw'
  simp only [List.mem_map] at hw'
  obtain ⟨w, hw, rfl⟩ := hw'
  by_cases hcond : w.id = tid ∧ w.direction = d
  · rw [if_pos hcond]
    exact signConsistentB_applyUpdates w u d (hst w hw) hcond.2 hsh
  · rw [if_neg hcond]
    exact hst w hw

/-- C6 (amended): sign/direction consistency — for every stored row the
amount parses, with `direction = income → amount ≥ 0` and
`direction = expense → amount ≤ 0` (zero is legal for either direction) —
is an invariant preserved by every write operation of the backend store
surface: import (with or without month replacement), single-row create, and
both update paths. -/
theorem sign_invariant_preserved (store : List Row) (op : StoreOp)
    (hinv : SignInvariant store) (hvalid : StoreOpValid op) :
    SignInvariant (applyStoreOp store op) := by
  cases op with
  | importBatch normalized rm y m =>
    simp only [applyStoreOp]
    cases hres : import_transactions store normalized rm y m with
    | error e => exact hinv
    | ok out =>
      have hrows : ∀ r ∈ normalized, NormRowSign r :=
        fun r hr => normalized_output_sign r (hvalid r hr)
      rcases import_transactions_ok_elim store normalized rm y m out hres with
        ⟨_, hc⟩ | ⟨_, pfx, hc⟩
      · show SignInvariant (out.commits.getLastD store)
        rw [hc]
        simp only [List.getLastD]
        exact importRows_sign store normalized hinv hrows
      · show SignInvariant (out.commits.getLastD store)
        rw [hc]
        simp only [List.getLastD]
        refine importRows_sign _ normalized ?_ hrows
        intro w hw
        exact hinv w (List.mem_of_mem_filter hw)
  | create payload freshId =>
    simp only [applyStoreOp]
    cases hres : create_transaction store payload freshId with
    | error e => exact hinv
    | ok pair =>
      obtain ⟨store', tid⟩ := pair
      show SignInvariant store'
      unfold create_transaction at hres
      by_cases h1 : payload.amount ≤ 0
      · simp [h1, bind, Except.bind, throw, throwThe, MonadExceptOf.throw] at hres
      · simp only [h1, if_false, bind, Except.bind, throw, throwThe,
          MonadExceptOf.throw] at hres
        by_cases h2 : payload.date.pyStrip = ""
        · simp [h2, pure, Except.pure] at hres
        · simp only [h2, Bool.false_eq_true, if_false, pure, Except.pure] at hres
          by_cases h3 : payload.description.pyStrip = ""
          · simp [h3, pure, Except.pure] at hres
          · simp only [h3, Bool.false_eq_true, if_false, pure, Except.pure] at hres
            injection hres with hres
            have hstore := congrArg Prod.fst hres
            simp only at hstore
            rw [← hstore]
            intro w hw
            rcases List.mem_append.mp hw with hwmem | hwmem
            · exact hinv w hwmem
            · rw [List.mem_singleton] at hwmem
              subst hwmem
              refine signConsistentB_of _
                (if payload.direction = "income" then (payload.amount.natAbs : Int)
                 else -(payload.amount.natAbs : Int)) rfl ?_ ?_
              · intro hi
                dsimp only at hi
                rw [if_pos hi]
                exact Int.natCast_nonneg _
              · intro he
                dsimp only at he
                rw [if_neg (by rw [he]; decide)]
                exact neg_nonpos.mpr (Int.natCast_nonneg _)
  | updateById d tid payload =>
    simp only [applyStoreOp]
    cases hres : update_transaction_by_id d store tid payload with
    | error e => exact hinv
    | ok store' =>
      obtain ⟨u, f, hu, hstore⟩ := update_by_id_ok_elim d store store' tid payload hres
      show SignInvariant store'
      rw [hstore]
      refine apply_transaction_update_sign store tid _ d hinv ?_
      rcases (build_transaction_updates_shape payload d u hu).2 with hnone | ⟨a, -, -, hsome⟩
      · exact Or.inl hnone
      · exact Or.inr ⟨a, hsome⟩
  | updateByMatch d original updated =>
    simp only [applyStoreOp]
    cases hres : update_transaction_by_match d store original updated with
    | error e => exact hinv
    | ok store' =>
      obtain ⟨u, onlyId, hu, hstore⟩ :=
        update_by_match_ok_elim d store store' original updated hres
      show SignInvariant store'
      rw [hstore]
      refine apply_transaction_update_sign store onlyId u d hinv ?_
      rcases (build_transaction_updates_shape updated d u hu).2 with hnone | ⟨a, -, -, hsome⟩
      · exact Or.inl hnone
      · exact Or.inr ⟨a, hsome⟩

/-- Fixture payload: a simple expense creation request. -/
def breadPayload : CreateTransactionRequest :=
  { date := "2024-01-09", direction := "expense", category := "misc",
    description := "bread", amount := 1200 }

/-- Witness for `sign_invariant_preserved`: creating an expense on top of an
invariant-satisfying store keeps the invariant. -/
theorem sign_invariant_preserved_witness :
    SignInvariant [coffeeRow] ∧
    StoreOpValid (StoreOp.create breadPayload "c9") ∧
    SignInvariant (applyStoreOp [coffeeRow] (StoreOp.create breadPayload "c9")) := by
  have hinv : SignInvariant [coffeeRow] := by unfold SignInvariant; decide
  exact ⟨hinv, Or.inr rfl,
    sign_invariant_preserved [coffeeRow] _ hinv (Or.inr rfl)⟩


/-! ### C2: edit survival under re-import -/

/-- The single row a first import of `r` into an empty store inserts. -/
def insRow (r : NormRow) : Row :=
  insertedRow r (transaction_fingerprint r.content)
    (if r.raw_category.pyStrip ∈ AUTO_EXCLUDED_CATEGORIES then 1 else 0)

/-- The stored amount string after a by-id amount edit to `a` (the handler
re-signs the magnitude from the endpoint direction). -/
def editedAmount (r : NormRow) (a : Int) : String :=
  intToDecimalString (if r.direction = "expense" then -(a.natAbs : Int) else (a.natAbs : Int))

/-- The content tuple of the edited row: `r`'s content with the new amount. -/
def editedContent (r : NormRow) (a : Int) : TxContent :=
  { date := r.date, amount := editedAmount r a, description := r.description
    method := r.method, direction := r.direction, raw_category := r.raw_category }

/-- The stored row after the by-id amount edit: only the amount and the
recomputed fingerprint differ from the freshly imported row. -/
def editedRow (r : NormRow) (a : Int) : Row :=
  { insRow r with
    amount := editedAmount r a
    import_fingerprint := some (transaction_fingerprint (editedContent r a)) }

/-- The by-id amount edit on the single imported row succeeds and rewrites
exactly the amount and the fingerprint. -/
theorem edit_step (r : NormRow) (a : Int) (ha : 0 < a) :
    update_transaction_by_id r.direction [insRow r] r.id
      { amount := some a } = .ok [editedRow r a] := by
  have h1 : ¬ a ≤ 0 := not_le.mpr ha
  unfold update_transaction_by_id build_transaction_updates
  simp only [bind, Except.bind, pure, Except.pure, throw, throwThe, MonadExceptOf.throw,
    h1, if_false, UpdatesDict.isEmpty]
  simp only [Option.isNone, Bool.and_false, Bool.false_and, Bool.and_self]
  simp only [List.find?, insRow, insertedRow, eq_self_iff_true, and_self, decide_True,
    Option.map_none, Option.getD_some, Option.getD_none,
    apply_transaction_update, List.filter, List.map, List.length]
  simp [applyUpdates, editedRow, editedAmount, editedContent, insRow, insertedRow]

/-- Re-importing the original candidate over the edited row: the edited
amount breaks the exact-fingerprint path and the two amount-bearing fallback
keys, but the amount-free level-3 key still matches uniquely, so the pass
only restores the original fingerprint and counts one duplicate. -/
theorem reimport_step (r : NormRow) (a : Int)
    (hch : (editedAmount r a).pyStrip ≠ r.amount.pyStrip) :
    importRows [editedRow r a] [r] =
    { rows := [{ editedRow r a with
        import_fingerprint := some (transaction_fingerprint r.content) }]
      seen := [transaction_fingerprint r.content,
        transaction_fingerprint (editedContent r a)]
      fbWith := [(transaction_fallback_key_with_method (editedContent r a), [r.id])]
      fb := [(transaction_fallback_key (editedContent r a), [r.id])]
      fbWo := [(transaction_fallback_key_without_amount (editedContent r a), [r.id])]
      skipped := 1 } := by
  have hfp : transaction_fingerprint r.content ≠ transaction_fingerprint (editedContent r a) := by
    intro h
    exact hch (((congrArg TxContent.amount h).symm :
      (editedAmount r a).pyStrip = r.amount.pyStrip))
  have hk4 : transaction_fallback_key_with_method (editedContent r a) ≠
      transaction_fallback_key_with_method r.content := by
    intro h
    exact hch ((congrArg (fun p : Key4 => p.2.1) h :
      (editedAmount r a).pyStrip = r.amount.pyStrip))
  have hk3 : transaction_fallback_key (editedContent r a) ≠
      transaction_fallback_key r.content := by
    intro h
    exact hch ((congrArg (fun p : Key3 => p.2.1) h :
      (editedAmount r a).pyStrip = r.amount.pyStrip))
  have hcontent : (editedRow r a).content = editedContent r a := rfl
  have hfpProj : (editedRow r a).import_fingerprint =
    some (transaction_fingerprint (editedContent r a)) := rfl
  have hidProj : (editedRow r a).id = r.id := rfl
  simp only [importRows, List.foldl, initImportState, List.filterMap, processRow,
    matchCascade, cascadeLevel2, cascadeLevel3, mapGet, mapAppend,
    hcontent, hfpProj, hidProj]
  have hwo : transaction_fallback_key_without_amount (editedContent r a) =
      transaction_fallback_key_without_amount r.content := rfl
  rw [if_neg (fun hmem => hfp (List.mem_singleton.mp hmem)),
    if_neg hk4, if_neg hk3, if_pos hwo]
  simp only [List.map]
  rw [if_pos (hidProj : (editedRow r a).id = r.id)]
  rfl

/-- C2: edit survival under re-import.  Import a candidate `r` into an empty
store (it inserts exactly one row), edit its amount to `a` through the by-id
update path, then re-import the original candidate: the edit succeeds and
changes only the amount and the fingerprint; the re-import reports
`skipped_duplicates = 1`, `imported = 0`, and its single committed store is
the edited row with only its fingerprint rewritten back to the original
content's fingerprint — every edited field survives. -/
theorem edit_survival_under_reimport (r : NormRow) (a : Int)
    (ha : 0 < a)
    (hch : (editedAmount r a).pyStrip ≠ r.amount.pyStrip) :
    (importRows [] [r]).rows = [insRow r] ∧
    update_transaction_by_id r.direction [insRow r] r.id
      { amount := some a } = .ok [editedRow r a] ∧
    import_transactions [editedRow r a] [r] false none none = .ok
      { commits := [[{ editedRow r a with
          import_fingerprint := some (transaction_fingerprint r.content) }]]
        deleted := 0
        imported := 0
        skipped_duplicates := 1 } := by
  refine ⟨rfl, edit_step r a ha, ?_⟩
  unfold import_transactions
  simp only [bind, Except.bind, pure, Except.pure, throw, throwThe, MonadExceptOf.throw,
    List.isEmpty, Bool.false_eq_true, if_false]
  rw [reimport_step r a hch]
  rfl

/-- Witness for `edit_survival_under_reimport`: the coffee candidate, its
amount edited to 3000. -/
theorem edit_survival_under_reimport_witness :
    (0 : Int) < 3000 ∧
    ((editedAmount coffeeNorm 3000).pyStrip ≠ coffeeNorm.amount.pyStrip) ∧
    ((importRows [] [coffeeNorm]).rows = [insRow coffeeNorm] ∧
    update_transaction_by_id coffeeNorm.direction [insRow coffeeNorm] coffeeNorm.id
      { amount := some 3000 } = .ok [editedRow coffeeNorm 3000] ∧
    import_transactions [editedRow coffeeNorm 3000] [coffeeNorm] false none none = .ok
      { commits := [[{ editedRow coffeeNorm 3000 with
          import_fingerprint := some (transaction_fingerprint coffeeNorm.content) }]]
        deleted := 0
        imported := 0
        skipped_duplicates := 1 }) :=
  ⟨by decide, by decide,
    edit_survival_under_reimport coffeeNorm 3000 (by decide) (by decide)⟩


/-! ### C1: import idempotence -/

/-- C1 counterexample: starting from a store holding one row whose
fingerprint is stale (its content was edited by the by-snapshot path, which
does not recompute fingerprints), a first import of a two-candidate file
skips both candidates (`imported = 0`, `skipped_duplicates = 2`) but its
fallback rewrite *erases* the stale fingerprint; the second import of the
same file is then not a no-op: it skips only one candidate and inserts the
other, growing the store.  Idempotence therefore fails for arbitrary prior
stores. -/
theorem import_idempotent_cex :
    import_transactions [staleFingerprintRow] [coffeeNorm, editMatchingNorm]
        false none none = .ok
      { commits := [[{ staleFingerprintRow with
          import_fingerprint := some (transaction_fingerprint editMatchingNorm.content) }]]
        deleted := 0, imported := 0, skipped_duplicates := 2 } ∧
    import_transactions
        [{ staleFingerprintRow with
          import_fingerprint := some (transaction_fingerprint editMatchingNorm.content) }]
        [coffeeNorm, editMatchingNorm] false none none ≠ .ok
      { commits := [[{ staleFingerprintRow with
          import_fingerprint := some (transaction_fingerprint editMatchingNorm.content) }]]
        deleted := 0, imported := 0, skipped_duplicates := 2 } ∧
    (importRows
      [{ staleFingerprintRow with
        import_fingerprint := some (transaction_fingerprint editMatchingNorm.content) }]
      [coffeeNorm, editMatchingNorm]).skipped = 1 := by decide

/-- C1 (amended): import idempotence for a first import that inserted every
candidate.  If the first batch reported no duplicates (so every candidate
was inserted and its fingerprint registered), then re-importing any file
that normalizes to the same content tuples, with no replacement directive,
skips every candidate (`skipped_duplicates = N`, `imported = 0`) and commits
the store unchanged. -/
theorem import_idempotent (store : List Row) (rows1 rows2 : List NormRow)
    (hne : rows2 ≠ [])
    (hcontent : rows2.map NormRow.content = rows1.map NormRow.content)
    (hfresh : (importRows store rows1).skipped = 0) :
    import_transactions (importRows store rows1).rows rows2 false none none = .ok
      { commits := [(importRows store rows1).rows]
        deleted := 0
        imported := 0
        skipped_duplicates := rows2.length } := by
  have hfresh' : (rows1.foldl processRow (initImportState store)).skipped =
      (initImportState store).skipped := hfresh
  have hins := foldl_processRow_of_no_skips rows1 (initImportState store) hfresh'
  have hseen : ∀ r ∈ rows2, transaction_fingerprint r.content ∈
      (initImportState (importRows store rows1).rows).seen := by
    intro r hr
    obtain ⟨r1, hr1, heq⟩ := List.mem_map.mp
      (hcontent ▸ List.mem_map_of_mem NormRow.content hr)
    show transaction_fingerprint r.content ∈
      (importRows store rows1).rows.filterMap Row.import_fingerprint
    rw [show (importRows store rows1).rows = _ from hins.1]
    rw [List.filterMap_append]
    apply List.mem_append_right
    apply List.mem_filterMap.mpr
    refine ⟨insertedRow r1 (transaction_fingerprint r1.content)
      (if r1.raw_category.pyStrip ∈ AUTO_EXCLUDED_CATEGORIES then 1 else 0), ?_, ?_⟩
    · exact List.mem_map_of_mem _ hr1
    · show some (transaction_fingerprint r1.content) = some (transaction_fingerprint r.content)
      rw [heq]
  have hall := foldl_processRow_of_all_seen rows2
    (initImportState (importRows store rows1).rows) hseen
  unfold import_transactions
  simp only [bind, Except.bind, pure, Except.pure, throw, throwThe, MonadExceptOf.throw]
  rw [if_neg (by simp [List.isEmpty_iff, hne])]
  rw [if_neg (by simp : ¬ (false = true))]
  show Except.ok _ = _
  rw [show importRows (importRows store rows1).rows rows2 = _ from hall]
  dsimp only [initImportState]
  rw [Nat.zero_add, Nat.sub_self]

/-- Witness for `import_idempotent`: importing the coffee candidate into an
empty store, then importing it again. -/
theorem import_idempotent_witness :
    ([coffeeNorm] : List NormRow) ≠ [] ∧
    ([coffeeNorm].map NormRow.content = [coffeeNorm].map NormRow.content) ∧
    (importRows ([] : List Row) [coffeeNorm]).skipped = 0 ∧
    import_transactions (importRows [] [coffeeNorm]).rows [coffeeNorm] false none none = .ok
      { commits := [(importRows [] [coffeeNorm]).rows]
        deleted := 0, imported := 0, skipped_duplicates := 1 } :=
  ⟨by decide, rfl, by decide,
    import_idempotent [] [coffeeNorm] [coffeeNorm] (by decide) rfl (by decide)⟩

end Bankpoke
